import Mathlib
set_option maxRecDepth 10000

/-!
Shallow embedding of the smartdiff core (room rendering, tileset loading,
git-tree path resolution, image diffing) from src/room.rs, src/main.rs,
src/file_system.rs and src/smart_xml.rs, together with theorems checking the
natural-language specification against it.

Conventions of the embedding:
- Rust u8/u16/u32/usize become Nat; wrap-around casts are written with an
  explicit mod (for example a u32-to-u16 cast is written as mod 65536).
- Rust Vec mutation becomes explicit state passing.
- Fallible Rust code returns Except: a value built from anyhow errors is
  modeled as Fail.err with the source's message string, and a Rust panic from
  an out-of-range index is modeled as Fail.oob.
- Rust while loops over byte buffers become structural or fuel recursion.
-/

/-- Failure modes of the embedded code: an error value returned by the Rust
code (anyhow Result), or a panic raised by an out-of-range index. -/
inductive Fail where
  | err : String → Fail
  | oob : Fail
deriving DecidableEq, Repr

/-- Result type of the embedded fallible or panicking code. -/
abbrev Res (α : Type) : Type := Except Fail α

/-- RGBA image from src/room.rs (struct Image): the pixel buffer holds 4
bytes per pixel in row-major order. -/
structure Image where
  width : Nat
  height : Nat
  pixels : List Nat
deriving DecidableEq, Repr

/-- Image::new from src/room.rs: a width*height*4 buffer of zero bytes. -/
def Image.new (width height : Nat) : Image :=
  { width := width, height := height, pixels := List.replicate (width * height * 4) 0 }

/-- Image::get_pixel from src/room.rs: reads the 3 RGB bytes of pixel (x, y).
The Rust code indexes the buffer at i, i+1, i+2 and panics out of range. -/
def Image.get_pixel (img : Image) (x y : Nat) : Res (List Nat) :=
  let i := (y * img.width + x) * 4
  if i + 2 < img.pixels.length then
    .ok [img.pixels.getD i 0, img.pixels.getD (i + 1) 0, img.pixels.getD (i + 2) 0]
  else .error .oob

/-- Image::set_pixel from src/room.rs: writes the 3 RGB bytes of pixel (x, y)
and sets its alpha byte to 255. The Rust code indexes the buffer at i..i+3
and panics out of range. -/
def Image.set_pixel (img : Image) (x y : Nat) (color : List Nat) : Res Image :=
  let i := (y * img.width + x) * 4
  if i + 3 < img.pixels.length then
    .ok { img with pixels :=
      ((((img.pixels.set i (color.getD 0 0)).set (i + 1) (color.getD 1 0)).set
        (i + 2) (color.getD 2 0)).set (i + 3) 255) }
  else .error .oob

/-- Modelled from the spec: Image::get_transparent, called by diff_image in
src/main.rs but absent from src/. Per the spec an alpha of 0 denotes an
untouched/transparent pixel, so the accessor reads the alpha byte of pixel
(x, y) and reports whether it is 0. -/
def Image.get_transparent (img : Image) (x y : Nat) : Res Bool :=
  let i := (y * img.width + x) * 4
  if i + 3 < img.pixels.length then
    .ok (img.pixels.getD (i + 3) 0 == 0)
  else .error .oob

/-- Tile8x8 from src/room.rs. The Rust field _priority (underscore-prefixed
only to silence an unused warning) is named priority here. -/
structure Tile8x8 where
  idx : Nat
  palette : Nat
  flip_x : Bool
  flip_y : Bool
  priority : Bool
deriving DecidableEq, Repr

/-- Tile16x16 from src/room.rs: four quadrant 8x8 tiles. -/
structure Tile16x16 where
  top_left : Tile8x8
  top_right : Tile8x8
  bottom_left : Tile8x8
  bottom_right : Tile8x8
deriving DecidableEq, Repr

/-- CRETileset from src/room.rs: common 8x8 bitmaps and 16x16 tiles. -/
structure CRETileset where
  gfx : List (List (List Nat))
  tiles : List Tile16x16
deriving DecidableEq, Repr

/-- SCETileset from src/room.rs: the merged per-room-state tileset. -/
structure SCETileset where
  palette : List (List Nat)
  gfx : List (List (List Nat))
  tiles : List Tile16x16
deriving DecidableEq, Repr

/-- decode_8x8_tile_data_4bpp from src/room.rs: decodes a 32-byte planar
4bpp block into an 8x8 matrix of color indices. The Rust code indexes the
slice at y*2, y*2+1, y*2+16, y*2+17; the claims only concern 32-byte blocks,
for which every access is in range, so out-of-range reads are modeled with
getD. The Rust Result wrapper is always Ok and is dropped. -/
def decode_8x8_tile_data_4bpp (data : List Nat) : List (List Nat) :=
  (List.range 8).map fun y =>
    let addr := y * 2
    let data_0 := data.getD addr 0
    let data_1 := data.getD (addr + 1) 0
    let data_2 := data.getD (addr + 16) 0
    let data_3 := data.getD (addr + 17) 0
    (List.range 8).map fun x =>
      let bit_0 := (data_0 >>> (7 - x)) &&& 1
      let bit_1 := (data_1 >>> (7 - x)) &&& 1
      let bit_2 := (data_2 >>> (7 - x)) &&& 1
      let bit_3 := (data_3 >>> (7 - x)) &&& 1
      bit_0 ||| (bit_1 <<< 1) ||| (bit_2 <<< 2) ||| (bit_3 <<< 3)

/-- decode_8x8_tile from src/room.rs: unpacks a 16-bit word into a Tile8x8. -/
def decode_8x8_tile (x : Nat) : Tile8x8 :=
  { idx := x &&& 0x3FF
    palette := (x >>> 10) &&& 7
    priority := ((x >>> 13) &&& 1) == 1
    flip_x := ((x >>> 14) &&& 1) == 1
    flip_y := ((x >>> 15) &&& 1) == 1 }

/-- decode_16x16_tile from src/room.rs: an 8-byte record of four little-endian
16-bit words, one per quadrant. -/
def decode_16x16_tile (data : List Nat) : Tile16x16 :=
  { top_left := decode_8x8_tile (data.getD 0 0 ||| (data.getD 1 0 <<< 8))
    top_right := decode_8x8_tile (data.getD 2 0 ||| (data.getD 3 0 <<< 8))
    bottom_left := decode_8x8_tile (data.getD 4 0 ||| (data.getD 5 0 <<< 8))
    bottom_right := decode_8x8_tile (data.getD 6 0 ||| (data.getD 7 0 <<< 8)) }

/-- decode_color from src/room.rs: RGB555 to RGB888 by multiplying each 5-bit
channel by 8. The mod 256 mirrors the Rust u8 cast (it never truncates since
each channel is at most 31). -/
def decode_color (data : Nat) : List Nat :=
  let r := data &&& 0x1f
  let g := (data >>> 5) &&& 0x1f
  let b := (data >>> 10) &&& 0x1f
  [r * 8 % 256, g * 8 % 256, b * 8 % 256]

/-- Logical path: the component list of a slash-delimited file reference. -/
abbrev FsPath : Type := List String

/-- Display form of a path, used in error contexts. -/
def pathStr (p : FsPath) : String := String.intercalate "/" p

/-- Abstract byte-loading capability (the FileSystem trait of
src/file_system.rs): a map from paths to bytes or a load error. -/
abbrev LoadFn : Type := FsPath → Except String (List Nat)

/-- Helper modeling the with_context wrapping in the loaders of src/room.rs:
a load failure surfaces as an error carrying the context message. -/
def fsLoad (fs : LoadFn) (p : FsPath) (ctx : String) : Res (List Nat) :=
  match fs p with
  | .ok b => .ok b
  | .error e => .error (.err (ctx ++ ": " ++ e))

/-- Byte loop of load_palette from src/room.rs: consumes 2 bytes per color.
On an odd-length buffer the Rust code panics reading index i+1. -/
def palFromBytes : List Nat → Res (List (List Nat))
  | [] => .ok []
  | [_] => .error .oob
  | b0 :: b1 :: rest => do
      let colors ← palFromBytes rest
      .ok (decode_color (b0 ||| (b1 <<< 8)) :: colors)

/-- load_palette from src/room.rs. -/
def load_palette (palette_path : FsPath) (fs : LoadFn) : Res (List (List Nat)) := do
  let bytes ← fsLoad fs palette_path ("Unable to load palette at " ++ pathStr palette_path)
  palFromBytes bytes

/-- Byte loop of load_8x8_gfx from src/room.rs with explicit fuel (an
artifact of totality: the wrapper passes the buffer length, which bounds the
iteration count): consumes 32 bytes per tile. Slicing a final partial chunk
panics in Rust, modeled as oob. -/
def gfxFromBytesAux : Nat → List Nat → Res (List (List (List Nat)))
  | _, [] => .ok []
  | 0, _ :: _ => .error .oob
  | fuel + 1, b :: bs =>
    if (b :: bs).length < 32 then .error .oob
    else do
      let rest ← gfxFromBytesAux fuel ((b :: bs).drop 32)
      .ok (decode_8x8_tile_data_4bpp ((b :: bs).take 32) :: rest)

/-- Byte loop of load_8x8_gfx from src/room.rs. -/
def gfxFromBytes (bytes : List Nat) : Res (List (List (List Nat))) :=
  gfxFromBytesAux bytes.length bytes

/-- load_8x8_gfx from src/room.rs. -/
def load_8x8_gfx (gfx8x8_path : FsPath) (fs : LoadFn) : Res (List (List (List Nat))) := do
  let bytes ← fsLoad fs gfx8x8_path ("Unable to load CRE 8x8 gfx at " ++ pathStr gfx8x8_path)
  gfxFromBytes bytes

/-- Byte loop of load_16x16_gfx from src/room.rs with explicit fuel:
consumes 8 bytes per record. -/
def tilesFromBytesAux : Nat → List Nat → Res (List Tile16x16)
  | _, [] => .ok []
  | 0, _ :: _ => .error .oob
  | fuel + 1, b :: bs =>
    if (b :: bs).length < 8 then .error .oob
    else do
      let rest ← tilesFromBytesAux fuel ((b :: bs).drop 8)
      .ok (decode_16x16_tile ((b :: bs).take 8) :: rest)

/-- Byte loop of load_16x16_gfx from src/room.rs. -/
def tilesFromBytes (bytes : List Nat) : Res (List Tile16x16) :=
  tilesFromBytesAux bytes.length bytes

/-- load_16x16_gfx from src/room.rs. -/
def load_16x16_gfx (gfx16x16_path : FsPath) (fs : LoadFn) : Res (List Tile16x16) := do
  let bytes ← fsLoad fs gfx16x16_path ("Unable to load CRE 16x16 tiles at " ++ pathStr gfx16x16_path)
  tilesFromBytes bytes

/-- load_cre_tileset from src/room.rs. -/
def load_cre_tileset (tileset_path : FsPath) (fs : LoadFn) : Res CRETileset := do
  let gfx ← load_8x8_gfx (tileset_path ++ ["8x8tiles.gfx"]) fs
  let tiles ← load_16x16_gfx (tileset_path ++ ["16x16tiles.ttb"]) fs
  .ok { gfx := gfx, tiles := tiles }

/-- load_sce_tileset from src/room.rs: loads the specific tileset and merges
it with the common one. The Rust code extends the specific gfx with the
common gfx (specific first), but initializes the tile list from the common
tiles and extends it with the specific tiles (common first). -/
def load_sce_tileset (tileset_path : FsPath) (cre_tileset : CRETileset) (fs : LoadFn) :
    Res SCETileset := do
  let palette ← load_palette (tileset_path ++ ["palette.snes"]) fs
  let gfx ← load_8x8_gfx (tileset_path ++ ["8x8tiles.gfx"]) fs
  let sce_tiles ← load_16x16_gfx (tileset_path ++ ["16x16tiles.ttb"]) fs
  .ok { palette := palette, gfx := gfx ++ cre_tileset.gfx, tiles := cre_tileset.tiles ++ sce_tiles }

/-- Body of the pixel loop of render_tile_8x8 from src/room.rs: mirrors the
source coordinate per the tile's flips, skips color index 0, otherwise looks
up palette slot palette*16+color and writes the pixel with full opacity. -/
def renderTilePixel (tileset : SCETileset) (gfx : List (List Nat)) (tile : Tile8x8)
    (x0 y0 : Nat) (image : Image) (y x : Nat) : Res Image :=
  let x1 := if tile.flip_x then 7 - x else x
  let y1 := if tile.flip_y then 7 - y else y
  let c := (gfx.getD y1 []).getD x1 0
  if c = 0 then .ok image
  else
    match tileset.palette[tile.palette * 16 + c]? with
    | none => .error .oob
    | some color => image.set_pixel (x0 + x) (y0 + y) color

/-- render_tile_8x8 from src/room.rs: looks up the tile's 8x8 bitmap (a panic
when the index is out of range) and paints the 64 pixels. -/
def render_tile_8x8 (image : Image) (x0 y0 : Nat) (tile : Tile8x8) (tileset : SCETileset) :
    Res Image :=
  match tileset.gfx[tile.idx]? with
  | none => .error .oob
  | some gfx =>
    (List.range 8).foldlM (fun img y =>
      (List.range 8).foldlM (fun img x => renderTilePixel tileset gfx tile x0 y0 img y x) img)
      image

/-- render_tile_16x16 from src/room.rs: four 8x8 paints at the quadrant
offsets. -/
def render_tile_16x16 (image : Image) (x0 y0 : Nat) (tile : Tile16x16)
    (tileset : SCETileset) : Res Image := do
  let image ← render_tile_8x8 image x0 y0 tile.top_left tileset
  let image ← render_tile_8x8 image (x0 + 8) y0 tile.top_right tileset
  let image ← render_tile_8x8 image x0 (y0 + 8) tile.bottom_left tileset
  render_tile_8x8 image (x0 + 8) (y0 + 8) tile.bottom_right tileset

/-- BGData block from src/smart_xml.rs (struct BGDataData): a typed data
block; source words are u32 values. -/
structure BGDataData where
  type_ : String
  source : List Nat
  dest : String
  size : String
deriving DecidableEq, Repr

/-- BGData from src/smart_xml.rs. -/
structure BGData where
  data : List BGDataData
deriving DecidableEq, Repr

/-- Screen from src/smart_xml.rs: a grid position and its tile data words. -/
structure Screen where
  x : Nat
  y : Nat
  data : List Nat
deriving DecidableEq, Repr

/-- Per-block body of render_bgdata from src/room.rs. Blocks whose type tag
is not DECOMP are skipped; the decoded word list is painted when its length
is exactly 1024 or 2048 and is otherwise ignored. The u32-to-u16 cast of each
word is the mod 65536. Loop bounds use the incoming image's dimensions, which
set_pixel never changes. -/
def renderBGBlock (tileset : SCETileset) (image : Image) (d : BGDataData) : Res Image :=
  if d.type_ ≠ "DECOMP" then .ok image
  else
    let tiles := d.source.map fun word => decode_8x8_tile (word % 65536)
    if tiles.length = 1024 then
      (List.range (image.height / 256)).foldlM (fun img screen_y =>
        (List.range (image.width / 256)).foldlM (fun img screen_x =>
          tiles.enum.foldlM (fun img p =>
            render_tile_8x8 img (screen_x * 256 + p.1 % 32 * 8) (screen_y * 256 + p.1 / 32 * 8)
              p.2 tileset) img) img) image
    else if tiles.length = 2048 then
      (List.range (image.height / 256)).foldlM (fun img screen_y =>
        (List.range (image.width / 512)).foldlM (fun img screen_x2 =>
          tiles.enum.foldlM (fun img p =>
            if p.1 < 1024 then
              render_tile_8x8 img (screen_x2 * 512 + p.1 % 32 * 8) (screen_y * 256 + p.1 / 32 * 8)
                p.2 tileset
            else
              render_tile_8x8 img (screen_x2 * 512 + 256 + p.1 % 32 * 8)
                (screen_y * 256 + (p.1 - 1024) / 32 * 8) p.2 tileset) img) img) image
    else .ok image

/-- render_bgdata from src/room.rs: folds the per-block body over the data
blocks. The Rust Result return is always Ok; failures of the embedding are
panics (oob) only. -/
def render_bgdata (bgdata : BGData) (image : Image) (tileset : SCETileset) : Res Image :=
  bgdata.data.foldlM (fun img d => renderBGBlock tileset img d) image

/-- Per-word body of render_screens from src/room.rs: decodes the word's
tile-table index and screen-level flip bits, applies the quadrant swap and
flag inversion for each set flip bit, and paints the composite tile. -/
def renderScreenWord (tileset : SCETileset) (x0 y0 : Nat) (image : Image) (i data : Nat) :
    Res Image :=
  let x := i % 16 + x0
  let y := i / 16 + y0
  let tile_idx := data &&& 0x3FF
  let tile_flip_x : Bool := data &&& 0x400 != 0
  let tile_flip_y : Bool := data &&& 0x800 != 0
  match tileset.tiles[tile_idx]? with
  | none => .error .oob
  | some tile =>
    let tile :=
      if tile_flip_x then
        { top_left := { tile.top_right with flip_x := !tile.top_right.flip_x }
          top_right := { tile.top_left with flip_x := !tile.top_left.flip_x }
          bottom_left := { tile.bottom_right with flip_x := !tile.bottom_right.flip_x }
          bottom_right := { tile.bottom_left with flip_x := !tile.bottom_left.flip_x } }
      else tile
    let tile :=
      if tile_flip_y then
        { top_left := { tile.bottom_left with flip_y := !tile.bottom_left.flip_y }
          top_right := { tile.bottom_right with flip_y := !tile.bottom_right.flip_y }
          bottom_left := { tile.top_left with flip_y := !tile.top_left.flip_y }
          bottom_right := { tile.top_right with flip_y := !tile.top_right.flip_y } }
      else tile
    render_tile_16x16 image (x * 16) (y * 16) tile tileset

/-- Per-screen body of render_screens from src/room.rs: enumerates the
screen's data words. -/
def renderScreen (tileset : SCETileset) (image : Image) (screen : Screen) : Res Image :=
  screen.data.enum.foldlM
    (fun img p => renderScreenWord tileset (screen.x * 16) (screen.y * 16) img p.1 p.2) image

/-- render_screens from src/room.rs. -/
def render_screens (screens : List Screen) (image : Image) (tileset : SCETileset) : Res Image :=
  screens.foldlM (fun img s => renderScreen tileset img s) image

/-- Layer1 from src/smart_xml.rs. -/
structure Layer1 where
  screen : List Screen
deriving DecidableEq, Repr

/-- Layer2 from src/smart_xml.rs. -/
structure Layer2 where
  screen : List Screen
deriving DecidableEq, Repr

/-- LevelData from src/smart_xml.rs. -/
structure LevelData where
  layer_1 : Layer1
  layer_2 : Layer2
deriving DecidableEq, Repr

/-- RoomState from src/smart_xml.rs. -/
structure RoomState where
  condition : String
  arg : Nat
  gfx_set : Nat
  level_data : LevelData
  bg_data : BGData
deriving DecidableEq, Repr

/-- RoomStateList from src/smart_xml.rs. -/
structure RoomStateList where
  state : List RoomState
deriving DecidableEq, Repr

/-- Room from src/smart_xml.rs: dimensions in screen-grid units plus the
state list. -/
structure Room where
  width : Nat
  height : Nat
  states : RoomStateList
deriving DecidableEq, Repr

/-- RoomImages from src/room.rs. -/
structure RoomImages where
  room_state_names : List String
  layer1 : List Image
  layer2 : List Image
deriving DecidableEq, Repr

/-- Uppercase hexadecimal digit for a value below 16. -/
def hexDigit (n : Nat) : Char :=
  if n < 10 then Char.ofNat (48 + n) else Char.ofNat (55 + n)

/-- Accumulating uppercase hexadecimal digits of n, with fuel (n itself
bounds the digit count). -/
def hexStrAux : Nat → Nat → List Char → List Char
  | 0, _, acc => acc
  | fuel + 1, n, acc =>
    if n = 0 then acc else hexStrAux fuel (n / 16) (hexDigit (n % 16) :: acc)

/-- Zero-padded two-digit uppercase hexadecimal rendering of a gfx-set id,
matching the 02X format used in render_room of src/room.rs. -/
def hex2 (n : Nat) : String :=
  let s := if n = 0 then "0" else String.mk (hexStrAux n n [])
  if s.length < 2 then "0" ++ s else s

/-- render_room from src/room.rs, beginning after the XML load and parse:
the room document is taken already parsed (XML deserialization happens in an
external crate), and file loading goes through the abstract LoadFn. The CRE
tileset is loaded once, then each state is rendered in order: layer 1 from
its screen grid, layer 2 from background data first and its screen grid on
top. -/
def render_room (project_dir : FsPath) (room : Room) (fs : LoadFn) : Res RoomImages := do
  let cre_tileset ← load_cre_tileset (project_dir ++ ["Export", "Tileset", "CRE", "00"]) fs
  let sce_tilesets_dir := project_dir ++ ["Export", "Tileset", "SCE"]
  let lists ← room.states.state.foldlM
    (fun (acc : List String × List Image × List Image) state_xml => do
      let room_state_name := state_xml.condition ++ ": " ++ toString state_xml.arg
      let tileset_path := sce_tilesets_dir ++ [hex2 state_xml.gfx_set]
      let tileset ← load_sce_tileset tileset_path cre_tileset fs
      let width := room.width * 256
      let height := room.height * 256
      let layer1 ← render_screens state_xml.level_data.layer_1.screen (Image.new width height)
        tileset
      let layer2 ← render_bgdata state_xml.bg_data (Image.new width height) tileset
      let layer2 ← render_screens state_xml.level_data.layer_2.screen layer2 tileset
      .ok (acc.1 ++ [room_state_name], acc.2.1 ++ [layer1], acc.2.2 ++ [layer2]))
    ([], [], [])
  .ok { room_state_names := lists.1, layer1 := lists.2.1, layer2 := lists.2.2 }

/-- Fragment of refresh_room_images from src/main.rs that guards against a
room with no states: the enumerated state list built from the rendered
RoomImages is checked, and a zero-length list aborts with the error message
of the bail. UI state updates and the second (git) rendering are omitted. -/
def refreshRoomStatesCheck (images : RoomImages) : Except String (List (Nat × String)) :=
  let room_states := images.room_state_names.enum
  if room_states.length = 0 then .error "Empty list of room states"
  else .ok room_states

/-- Body of the pixel loop of diff_image from src/main.rs. The f32 darkening
arithmetic is modeled over exact rationals: each channel is multiplied by the
coefficient and truncated toward zero, with the saturating u8 cast modeled by
the min with 255 (it never fires for byte-valued channels and a coefficient
in the unit interval). -/
def diffPixel (img1 img2 : Image) (baseline : ℚ) (img : Image) (x y : Nat) : Res Image := do
  let p1 ← img1.get_pixel x y
  let p2 ← img2.get_pixel x y
  if p1 ≠ p2 then
    img.set_pixel x y [255, 255, 255]
  else do
    let transparent ← img1.get_transparent x y
    if transparent then .ok img
    else
      img.set_pixel x y (p1.map fun c => min (((c : ℚ) * baseline).floor.toNat) 255)

/-- diff_image from src/main.rs: builds a fresh image of the first input's
shape and fills it pixel by pixel. -/
def diff_image (img1 img2 : Image) (baseline : ℚ) : Res Image :=
  let img := Image.new img1.width img1.height
  (List.range img.height).foldlM (fun img y =>
    (List.range img.width).foldlM (fun img x => diffPixel img1 img2 baseline img x y) img) img

/-- Modelled from the spec: the inverse bit-packer of the 4bpp planar tile
format, which exists only in the spec's testable properties (section 8), not
in src/. planeByte collects, for plane p of row y, one bit from each of the
8 columns, the column-x bit at position 7-x. -/
def planeByte (m : List (List Nat)) (y p : Nat) : Nat :=
  let e := fun x => (((m.getD y []).getD x 0) >>> p) &&& 1
  e 0 * 128 + e 1 * 64 + e 2 * 32 + e 3 * 16 + e 4 * 8 + e 5 * 4 + e 6 * 2 + e 7

/-- Modelled from the spec: the inverse bit-packer assembling the 32-byte
block from an 8x8 index matrix; byte 2y holds plane 0 of row y, byte 2y+1
plane 1, byte 2y+16 plane 2 and byte 2y+17 plane 3. -/
def encode_8x8_tile_data_4bpp (m : List (List Nat)) : List Nat :=
  (List.range 32).map fun addr =>
    if addr < 16 then planeByte m (addr / 2) (addr % 2)
    else planeByte m ((addr - 16) / 2) (2 + (addr - 16) % 2)

/-- Git object graph node from src/file_system.rs: a tree maps entry names
to a file mode and a child object; a blob carries content (text, since the
claims read symlink targets and text files). -/
inductive GitObj where
  | tree : List (String × Nat × GitObj) → GitObj
  | blob : String → GitObj

/-- GitTreeFileSystem from src/file_system.rs, reduced to the root tree
(the repo handle only serves object fetching, which the GitObj graph already
provides). -/
structure GitTreeFileSystem where
  tree : GitObj

mutual

/-- Computable size of a git object graph, used only to pick a sufficient
walk fuel. -/
def gitObjSize : GitObj → Nat
  | .blob s => s.length + 1
  | .tree es => gitEntriesSize es + 1

def gitEntriesSize : List (String × Nat × GitObj) → Nat
  | [] => 0
  | e :: rest => gitObjSize e.2.2 + gitEntriesSize rest + 1

end

/-- get_components from src/file_system.rs splits a path into components and
reverses them so that Vec pop consumes them front first. Rust Path
normalization (collapsing repeated separators and interior dot components)
is modeled by the filter; the stack is modeled head-on-top, so the reversal
into pop order is implicit and the component list is kept in front-first
order. -/
def splitSlashAux : List Char → List Char → List String
  | [], acc => [String.mk acc.reverse]
  | c :: rest, acc =>
    if c = '/' then String.mk acc.reverse :: splitSlashAux rest []
    else splitSlashAux rest (c :: acc)

/-- Component list of a path (see splitSlashAux's doc comment above for the
modeling notes). -/
def get_components (path : String) : List String :=
  (splitSlashAux path.data []).filter fun c => c ≠ "" && c ≠ "."

/-- Walk state of GitTreeFileSystem::load: current object, remaining
components (head is the next one, matching the Vec-end stack), parent trees
(head is the most recent), and the symlink budget. -/
structure GitWalkSt where
  obj : GitObj
  components : List String
  parents : List GitObj
  symlink_limit : Nat

/-- One iteration of the while loop of GitTreeFileSystem::load from
src/file_system.rs, for a nonempty component stack: a dot-dot pops a parent,
a symlink entry (file mode 0xA000) spends one unit of the budget and pushes
the link target's components in place of descending, and any other entry
becomes the current object with the tree pushed as a parent. -/
def gitStep (st : GitWalkSt) : Except String GitWalkSt :=
  match st.components with
  | [] => .ok st
  | name :: rest =>
    if name = ".." then
      match st.parents with
      | [] => .error "Invalid reference to parent directory outside of repo"
      | p :: ps => .ok { st with obj := p, components := rest, parents := ps }
    else
      match st.obj with
      | .blob _ => .error ("Parent of component '" ++ name ++ "' is not a tree")
      | .tree entries =>
        match entries.find? (fun e => e.1 = name) with
        | none => .error ("Error getting component '" ++ name ++ "'")
        | some entry =>
          if entry.2.1 = 0xA000 then
            if st.symlink_limit = 0 then
              .error "Symlink limit reached (possibly a cyclic reference)"
            else
              match entry.2.2 with
              | .tree _ => .error "Symbolic link content is not a blob"
              | .blob content =>
                .ok { st with
                      components := get_components content ++ rest
                      symlink_limit := st.symlink_limit - 1 }
          else
            .ok { st with
                  obj := entry.2.2
                  components := rest
                  parents := st.obj :: st.parents }

/-- Fuel-indexed iteration of the load loop; the fuel is an artifact of
totality in Lean (the Rust loop terminates because the symlink budget bounds
re-injected components) and is chosen large enough by the wrapper. After the
components are consumed the current object must be a blob. -/
def gitLoadFuel : Nat → GitWalkSt → Except String String
  | 0, _ => .error "walk fuel exhausted"
  | fuel + 1, st =>
    match st.components with
    | [] =>
      match st.obj with
      | .blob c => .ok c
      | .tree _ => .error "Object exists but is not a blob"
    | _ :: _ =>
      match gitStep st with
      | .error e => .error e
      | .ok st1 => gitLoadFuel fuel st1

/-- GitTreeFileSystem::load from src/file_system.rs: resolves a path against
the root tree with a symlink budget of 40. -/
def GitTreeFileSystem.load (self : GitTreeFileSystem) (path : String) : Except String String :=
  let comps := get_components path
  gitLoadFuel (comps.length + 41 * (gitObjSize self.tree + 1) + 1)
    { obj := self.tree, components := comps, parents := [], symlink_limit := 40 }

/-- Decidable equality of results, used to evaluate the embedding at
concrete inputs. -/
instance {ε α : Type} [DecidableEq ε] [DecidableEq α] : DecidableEq (Except ε α) := fun x y =>
  match x, y with
  | .ok a, .ok b => if h : a = b then .isTrue (by rw [h]) else .isFalse (by simp [h])
  | .ok _, .error _ => .isFalse (by simp)
  | .error _, .ok _ => .isFalse (by simp)
  | .error e, .error f => if h : e = f then .isTrue (by rw [h]) else .isFalse (by simp [h])

/-- Tile with its own horizontal flip flag inverted (specification-side
description of the screen-level flip composition). -/
def invFlipX (t : Tile8x8) : Tile8x8 := { t with flip_x := !t.flip_x }

/-- Tile with its own vertical flip flag inverted. -/
def invFlipY (t : Tile8x8) : Tile8x8 := { t with flip_y := !t.flip_y }

/-- Tile with both of its own flip flags inverted. -/
def invFlipXY (t : Tile8x8) : Tile8x8 := { t with flip_x := !t.flip_x, flip_y := !t.flip_y }

/-- Validity of one Tile8x8 reference against a merged tileset: its bitmap
index is in range and every palette slot reachable through a nonzero color
index of that bitmap is in range of the palette. -/
def TileRefOK (ts : SCETileset) (t : Tile8x8) : Prop :=
  t.idx < ts.gfx.length ∧
  ∀ y < 8, ∀ x < 8,
    ((ts.gfx.getD t.idx []).getD y []).getD x 0 ≠ 0 →
      t.palette * 16 + ((ts.gfx.getD t.idx []).getD y []).getD x 0 < ts.palette.length

/-- Validity of all four quadrants of a Tile16x16. -/
def Tile16OK (ts : SCETileset) (t : Tile16x16) : Prop :=
  TileRefOK ts t.top_left ∧ TileRefOK ts t.top_right ∧
  TileRefOK ts t.bottom_left ∧ TileRefOK ts t.bottom_right

/-- Validity of one screen data word: its low-10-bit tile-table index is in
range of the merged tile list, and the referenced composite tile's quadrants
are valid. -/
def ScreenWordOK (ts : SCETileset) (d : Nat) : Prop :=
  (d &&& 0x3FF) < ts.tiles.length ∧
  ∀ t, ts.tiles[d &&& 0x3FF]? = some t → Tile16OK ts t

/-- Four bytes (RGBA) of pixel (x, y) of an image buffer read with row
width w, the observation used to state pixel-level properties. -/
def pixelQuad (R : Image) (w x y : Nat) : List Nat :=
  [R.pixels.getD ((y * w + x) * 4) 0, R.pixels.getD ((y * w + x) * 4 + 1) 0,
   R.pixels.getD ((y * w + x) * 4 + 2) 0, R.pixels.getD ((y * w + x) * 4 + 3) 0]

/-- Darkened-baseline pixel: the channels of img1's pixel (x, y) scaled by
the coefficient (truncated toward zero, with the saturating u8 cast), fully
opaque. -/
def scaledQuad (img1 : Image) (b : ℚ) (x y : Nat) : List Nat :=
  [min (((img1.pixels.getD ((y * img1.width + x) * 4) 0 : ℚ) * b).floor.toNat) 255,
   min (((img1.pixels.getD ((y * img1.width + x) * 4 + 1) 0 : ℚ) * b).floor.toNat) 255,
   min (((img1.pixels.getD ((y * img1.width + x) * 4 + 2) 0 : ℚ) * b).floor.toNat) 255,
   255]

/-- Invariant of the diff fold on identical inputs: dimensions and buffer
length preserved, and every in-range pixel quad is still zero (untouched
transparent) or already the darkened baseline. -/
def DiffSelfInv (img1 : Image) (b : ℚ) (R : Image) : Prop :=
  R.width = img1.width ∧ R.height = img1.height ∧
  R.pixels.length = img1.width * img1.height * 4 ∧
  ∀ x y, x < img1.width → y < img1.height →
    pixelQuad R img1.width x y = [0, 0, 0, 0] ∨
    pixelQuad R img1.width x y = scaledQuad img1 b x y

/-- Concrete 16x16 tile for tests: quadrant words 1,0,0,0. -/
def sampleTileA : Tile16x16 := decode_16x16_tile [1, 0, 0, 0, 0, 0, 0, 0]

/-- Concrete 16x16 tile for tests: quadrant words 2,0,0,0. -/
def sampleTileB : Tile16x16 := decode_16x16_tile [2, 0, 0, 0, 0, 0, 0, 0]

/-- Concrete filesystem whose specific tileset has one 16x16 tile
(sampleTileB) and an empty bitmap list and palette. -/
def sampleFs : LoadFn := fun p =>
  if p = ["T", "16x16tiles.ttb"] then .ok [2, 0, 0, 0, 0, 0, 0, 0]
  else if p = ["T", "8x8tiles.gfx"] then .ok []
  else if p = ["T", "palette.snes"] then .ok []
  else .error "not found"

/-- Concrete solid 8x8 bitmap, every texel color index 3. -/
def solidGfx3 : List (List Nat) := List.replicate 8 (List.replicate 8 3)

/-- Concrete quadrant tile: bitmap 0, palette 0, no flips. -/
def plainQuad : Tile8x8 := ⟨0, 0, false, false, false⟩

/-- Concrete tileset with one solid bitmap, one composite tile and a 4-color
palette: every tile/bitmap/palette reference of its single screen word is in
range. -/
def sampleTileset : SCETileset :=
  ⟨List.replicate 4 [1, 2, 3], [solidGfx3], [⟨plainQuad, plainQuad, plainQuad, plainQuad⟩]⟩

/-- Concrete tileset holding one composite tile with four distinct
quadrants, for exercising the screen-level flip composition. -/
def quadTileset : SCETileset :=
  ⟨[], [], [⟨⟨1, 0, false, false, false⟩, ⟨2, 0, true, false, false⟩,
    ⟨3, 0, false, true, false⟩, ⟨4, 0, false, false, true⟩⟩]⟩

/-- Git tree holding a chain of n symlinks s0 -> s1 -> ... -> s(n-1) -> f,
where f is a regular blob. -/
def chainTree (n : Nat) : GitObj :=
  .tree (((List.range n).map fun i =>
    ("s" ++ toString i, 0xA000,
      GitObj.blob (if i + 1 = n then "f" else "s" ++ toString (i + 1)))) ++
    [("f", 0x81A4, GitObj.blob "hello")])

@[simp] theorem ok_bind {ε α β : Type} (a : α) (f : α → Except ε β) :
    (Except.ok a >>= f) = f a := rfl

@[simp] theorem error_bind {ε α β : Type} (e : ε) (f : α → Except ε β) :
    ((Except.error e : Except ε α) >>= f) = Except.error e := rfl

@[simp] theorem pure_eq_ok {ε α : Type} (a : α) : (pure a : Except ε α) = Except.ok a := rfl

theorem foldlM_ok_invariant {α β : Type} (f : β → α → Res β) (l : List α) (P : β → Prop)
    (h : ∀ b a, a ∈ l → P b → ∃ b1, f b a = .ok b1 ∧ P b1) :
    ∀ b, P b → ∃ b1, l.foldlM f b = .ok b1 ∧ P b1 := by
  induction l with
  | nil => exact fun b hb => ⟨b, rfl, hb⟩
  | cons a t ih =>
    intro b hb
    obtain ⟨b1, hf, hP⟩ := h b a (List.mem_cons_self a t) hb
    obtain ⟨b2, hfold, hP2⟩ := ih (fun b a' ha' => h b a' (List.mem_cons_of_mem a ha')) b1 hP
    exact ⟨b2, by simp [List.foldlM_cons, hf, hfold], hP2⟩

theorem foldlM_noerr {α β : Type} (f : β → α → Res β) (l : List α)
    (h : ∀ b a, a ∈ l → ∀ s, f b a ≠ .error (.err s)) :
    ∀ b s, l.foldlM f b ≠ .error (.err s) := by
  induction l with
  | nil => intro b s hcon; simp [List.foldlM_nil] at hcon
  | cons a t ih =>
    intro b s hcon
    rw [List.foldlM_cons] at hcon
    cases hfa : f b a with
    | ok b1 =>
      rw [hfa] at hcon
      exact ih (fun b a' ha' => h b a' (List.mem_cons_of_mem a ha')) b1 s (by simpa using hcon)
    | error e =>
      rw [hfa] at hcon
      cases e with
      | err s1 => exact h b a (List.mem_cons_self a t) s1 hfa
      | oob => simp at hcon

theorem foldlM_congr_mem {α β : Type} {f g : β → α → Res β} {l : List α}
    (h : ∀ b a, a ∈ l → f b a = g b a) : ∀ b, l.foldlM f b = l.foldlM g b := by
  induction l with
  | nil => intro b; rfl
  | cons a t ih =>
    intro b
    rw [List.foldlM_cons, List.foldlM_cons, h b a (List.mem_cons_self a t)]
    cases g b a with
    | ok b1 => simpa using ih (fun b a' ha' => h b a' (List.mem_cons_of_mem a ha')) b1
    | error e => simp

theorem foldlM_enumFrom_shift {α β : Type} (f : β → Nat × α → Res β) (l : List α) :
    ∀ n m b, (l.enumFrom (n + m)).foldlM f b =
      (l.enumFrom n).foldlM (fun b p => f b (p.1 + m, p.2)) b := by
  induction l with
  | nil => intro n m b; rfl
  | cons a t ih =>
    intro n m b
    simp only [List.enumFrom_cons, List.foldlM_cons]
    cases hf : f b (n + m, a) with
    | ok b1 =>
      simp only [hf, ok_bind]
      have h2 := ih (n + 1) m b1
      have h3 : n + 1 + m = n + m + 1 := by omega
      rw [h3] at h2
      exact h2
    | error e => simp [hf]

theorem foldlM_enum_shift {α β : Type} (f : β → Nat × α → Res β) (l : List α) (m b) :
    (l.enumFrom m).foldlM f b = l.enum.foldlM (fun b p => f b (p.1 + m, p.2)) b := by
  have := foldlM_enumFrom_shift f l 0 m b
  simpa [List.enum] using this

theorem mem_enum_facts {α : Type} {l : List α} {p : Nat × α} (hp : p ∈ l.enum) :
    p.1 < l.length ∧ p.2 ∈ l := by
  obtain ⟨-, h1, h2⟩ := List.mem_enumFrom hp
  have hlt : p.1 < l.length := by simpa using h1
  refine ⟨hlt, ?_⟩
  rw [h2]
  exact List.getElem_mem _

theorem pixel_index_lt {x y w h : Nat} (hx : x < w) (hy : y < h) : y * w + x < w * h := by
  have h1 : y * w + x < (y + 1) * w := by
    have := Nat.add_mul y 1 w
    omega
  have h2 : (y + 1) * w ≤ h * w := Nat.mul_le_mul_right w hy
  have h3 : h * w = w * h := Nat.mul_comm h w
  omega

theorem getD_set_at {l : List Nat} {i : Nat} {a : Nat} (h : i < l.length) :
    (l.set i a).getD i 0 = a := by
  simp [List.getD_eq_getElem?_getD, List.getElem?_set_self', List.getElem?_eq_getElem h]

theorem getD_set_away {l : List Nat} {i j : Nat} {a : Nat} (h : i ≠ j) :
    (l.set i a).getD j 0 = l.getD j 0 := by
  simp [List.getD_eq_getElem?_getD, List.getElem?_set_ne h]

theorem set_pixel_spec (img : Image) (x y : Nat) (color : List Nat)
    (hx : x < img.width) (hy : y < img.height)
    (hlen : img.pixels.length = img.width * img.height * 4) :
    ∃ p1, img.set_pixel x y color = .ok ⟨img.width, img.height, p1⟩ ∧
      p1.length = img.pixels.length ∧
      p1.getD ((y * img.width + x) * 4) 0 = color.getD 0 0 ∧
      p1.getD ((y * img.width + x) * 4 + 1) 0 = color.getD 1 0 ∧
      p1.getD ((y * img.width + x) * 4 + 2) 0 = color.getD 2 0 ∧
      p1.getD ((y * img.width + x) * 4 + 3) 0 = 255 ∧
      ∀ j, j < (y * img.width + x) * 4 ∨ (y * img.width + x) * 4 + 3 < j →
        p1.getD j 0 = img.pixels.getD j 0 := by
  have hidx : y * img.width + x < img.width * img.height := pixel_index_lt hx hy
  have hi : (y * img.width + x) * 4 + 3 < img.pixels.length := by omega
  refine ⟨(((img.pixels.set ((y * img.width + x) * 4) (color.getD 0 0)).set
      ((y * img.width + x) * 4 + 1) (color.getD 1 0)).set
      ((y * img.width + x) * 4 + 2) (color.getD 2 0)).set
      ((y * img.width + x) * 4 + 3) 255, ?_, ?_, ?_, ?_, ?_, ?_, ?_⟩
  · simp only [Image.set_pixel, if_pos hi]
  · simp
  · rw [getD_set_away (by omega), getD_set_away (by omega), getD_set_away (by omega),
      getD_set_at (by omega)]
  · rw [getD_set_away (by omega), getD_set_away (by omega),
      getD_set_at (by simp only [List.length_set]; omega)]
  · rw [getD_set_away (by omega), getD_set_at (by simp only [List.length_set]; omega)]
  · rw [getD_set_at (by simp only [List.length_set]; omega)]
  · intro j hj
    rw [getD_set_away (by omega), getD_set_away (by omega), getD_set_away (by omega),
      getD_set_away (by omega)]

theorem get_pixel_spec (img : Image) (x y : Nat)
    (hx : x < img.width) (hy : y < img.height)
    (hlen : img.pixels.length = img.width * img.height * 4) :
    img.get_pixel x y = .ok [img.pixels.getD ((y * img.width + x) * 4) 0,
      img.pixels.getD ((y * img.width + x) * 4 + 1) 0,
      img.pixels.getD ((y * img.width + x) * 4 + 2) 0] := by
  have hidx : y * img.width + x < img.width * img.height := pixel_index_lt hx hy
  have hi : (y * img.width + x) * 4 + 2 < img.pixels.length := by omega
  simp only [Image.get_pixel, if_pos hi]

theorem get_transparent_spec (img : Image) (x y : Nat)
    (hx : x < img.width) (hy : y < img.height)
    (hlen : img.pixels.length = img.width * img.height * 4) :
    img.get_transparent x y = .ok (img.pixels.getD ((y * img.width + x) * 4 + 3) 0 == 0) := by
  have hidx : y * img.width + x < img.width * img.height := pixel_index_lt hx hy
  have hi : (y * img.width + x) * 4 + 3 < img.pixels.length := by omega
  simp only [Image.get_transparent, if_pos hi]

/-- C9: decode_color extracts the three 5-bit channels (red bits 0-4, green
bits 5-9, blue bits 10-14) and multiplies each by 8; it is monotonic in each
channel; decode_color 0 = [0,0,0] and decode_color 0x7FFF = [248,248,248],
never 255. -/
theorem c9_decode_color_channels :
    (∀ d : Nat, decode_color d = [d % 32 * 8, (d >>> 5) % 32 * 8, (d >>> 10) % 32 * 8]) ∧
    (∀ d1 d2 : Nat, d1 % 32 ≤ d2 % 32 →
      (decode_color d1).getD 0 0 ≤ (decode_color d2).getD 0 0) ∧
    (∀ d1 d2 : Nat, (d1 >>> 5) % 32 ≤ (d2 >>> 5) % 32 →
      (decode_color d1).getD 1 0 ≤ (decode_color d2).getD 1 0) ∧
    (∀ d1 d2 : Nat, (d1 >>> 10) % 32 ≤ (d2 >>> 10) % 32 →
      (decode_color d1).getD 2 0 ≤ (decode_color d2).getD 2 0) ∧
    decode_color 0 = [0, 0, 0] ∧
    decode_color 0x7FFF = [248, 248, 248] := by
  have hmask : ∀ d : Nat, d &&& 31 = d % 32 := by
    intro d
    have h := Nat.and_pow_two_sub_one_eq_mod d 5
    norm_num at h
    exact h
  have hform : ∀ d : Nat,
      decode_color d = [d % 32 * 8, (d >>> 5) % 32 * 8, (d >>> 10) % 32 * 8] := by
    intro d
    have e1 : d % 32 * 8 % 256 = d % 32 * 8 :=
      Nat.mod_eq_of_lt (by have := Nat.mod_lt d (show 0 < 32 by omega); omega)
    have e2 : (d >>> 5) % 32 * 8 % 256 = (d >>> 5) % 32 * 8 :=
      Nat.mod_eq_of_lt (by have := Nat.mod_lt (d >>> 5) (show 0 < 32 by omega); omega)
    have e3 : (d >>> 10) % 32 * 8 % 256 = (d >>> 10) % 32 * 8 :=
      Nat.mod_eq_of_lt (by have := Nat.mod_lt (d >>> 10) (show 0 < 32 by omega); omega)
    simp [decode_color, hmask, e1, e2, e3]
  refine ⟨hform, ?_, ?_, ?_, by decide, by decide⟩
  · intro d1 d2 h
    rw [hform d1, hform d2]
    simpa using Nat.mul_le_mul_right 8 h
  · intro d1 d2 h
    rw [hform d1, hform d2]
    simpa using Nat.mul_le_mul_right 8 h
  · intro d1 d2 h
    rw [hform d1, hform d2]
    simpa using Nat.mul_le_mul_right 8 h

/-- Witness for C9: the channel formula and monotonicity evaluated at
concrete inputs. -/
theorem c9_decode_color_channels_witness :
    (3 % 32 ≤ 5 % 32 ∧ (decode_color 3).getD 0 0 ≤ (decode_color 5).getD 0 0) ∧
    decode_color 0x1234 = [0x1234 % 32 * 8, (0x1234 >>> 5) % 32 * 8, (0x1234 >>> 10) % 32 * 8] :=
  ⟨⟨by decide, c9_decode_color_channels.2.1 3 5 (by decide)⟩,
    c9_decode_color_channels.1 0x1234⟩

/-- C1 counterexample: with a common tileset holding one 16x16 tile and a
specific tileset holding one different 16x16 tile, load_sce_tileset merges
the 16x16 tile lists common-first, not specific-first as the claim states. -/
theorem c1_counterexample :
    load_sce_tileset ["T"] ⟨[], [sampleTileA]⟩ sampleFs =
      .ok ⟨[], [], [sampleTileA, sampleTileB]⟩ ∧
    ([sampleTileA, sampleTileB] : List Tile16x16) ≠ [sampleTileB] ++ [sampleTileA] := by
  exact ⟨by decide, by decide⟩

/-- C1 (amended): whenever the three loads of the specific tileset succeed,
load_sce_tileset returns the specific palette, the merged bitmap list equal
to the specific bitmaps followed by the common bitmaps, and the merged 16x16
tile list equal to the common tiles followed by the specific tiles. -/
theorem c1_load_sce_tileset_merge (p : FsPath) (cre : CRETileset) (fs : LoadFn)
    (pal : List (List Nat)) (sgfx : List (List (List Nat))) (stiles : List Tile16x16)
    (hp : load_palette (p ++ ["palette.snes"]) fs = .ok pal)
    (hg : load_8x8_gfx (p ++ ["8x8tiles.gfx"]) fs = .ok sgfx)
    (ht : load_16x16_gfx (p ++ ["16x16tiles.ttb"]) fs = .ok stiles) :
    load_sce_tileset p cre fs =
      .ok { palette := pal, gfx := sgfx ++ cre.gfx, tiles := cre.tiles ++ stiles } := by
  simp [load_sce_tileset, hp, hg, ht]

/-- Witness for C1: the amended merge applied to the concrete fixture. -/
theorem c1_load_sce_tileset_merge_witness :
    (load_palette (["T"] ++ ["palette.snes"]) sampleFs = .ok [] ∧
     load_8x8_gfx (["T"] ++ ["8x8tiles.gfx"]) sampleFs = .ok [] ∧
     load_16x16_gfx (["T"] ++ ["16x16tiles.ttb"]) sampleFs = .ok [sampleTileB]) ∧
    load_sce_tileset ["T"] ⟨[], [sampleTileA]⟩ sampleFs =
      .ok { palette := [], gfx := [] ++ ([] : List (List (List Nat))),
            tiles := [sampleTileA] ++ [sampleTileB] } :=
  ⟨⟨by decide, by decide, by decide⟩,
    c1_load_sce_tileset_merge ["T"] ⟨[], [sampleTileA]⟩ sampleFs [] [] [sampleTileB]
      (by decide) (by decide) (by decide)⟩

/-- C2 counterexample: render_room on a Room with an empty state list does
not fail; it returns a RoomImages value with empty lists. -/
theorem c2_counterexample :
    render_room [] ⟨1, 1, ⟨[]⟩⟩ (fun _ => .ok []) = .ok ⟨[], [], []⟩ := by
  decide

/-- C2 (amended): for a Room with an empty state list, render_room succeeds
(whenever the CRE tileset load succeeds) and returns a RoomImages with empty
name and image lists; the empty-state error is raised afterwards by the
caller refresh_room_images, whose guard rejects the empty enumerated state
list with the bail message. -/
theorem c2_render_room_empty_states (project_dir : FsPath) (w h : Nat) (fs : LoadFn)
    (cre : CRETileset)
    (hcre : load_cre_tileset (project_dir ++ ["Export", "Tileset", "CRE", "00"]) fs = .ok cre) :
    render_room project_dir ⟨w, h, ⟨[]⟩⟩ fs = .ok ⟨[], [], []⟩ ∧
    refreshRoomStatesCheck ⟨[], [], []⟩ = .error "Empty list of room states" := by
  constructor
  · simp [render_room, hcre]
  · rfl

/-- Witness for C2: the amended statement applied at a concrete filesystem
whose CRE tileset is empty. -/
theorem c2_render_room_empty_states_witness :
    (load_cre_tileset (([] : FsPath) ++ ["Export", "Tileset", "CRE", "00"]) (fun _ => .ok []) =
      .ok ⟨[], []⟩) ∧
    (render_room [] ⟨2, 3, ⟨[]⟩⟩ (fun _ => .ok []) = .ok ⟨[], [], []⟩ ∧
     refreshRoomStatesCheck ⟨[], [], []⟩ = .error "Empty list of room states") :=
  ⟨by decide, c2_render_room_empty_states [] 2 3 (fun _ => .ok []) ⟨[], []⟩ (by decide)⟩

/-- C3: the symlink budget of GitTreeFileSystem::load is 40: a chain of 41
identical-shaped symlinks fails with the SymlinkCycle error while a chain of
39 ending at a blob succeeds; and each resolved symlink spends one unit of
budget and pushes its blob content's path components onto the remaining
component stack in place of descending (object and parent stack unchanged). -/
theorem c3_symlink_budget :
    (∀ (entries : List (String × Nat × GitObj)) (name : String) (rest parents)
      (limit : Nat) (n1 : String) (content : String),
      name ≠ ".." → limit ≠ 0 →
      entries.find? (fun e => e.1 = name) = some (n1, 0xA000, GitObj.blob content) →
      gitStep ⟨.tree entries, name :: rest, parents, limit⟩ =
        .ok ⟨.tree entries, get_components content ++ rest, parents, limit - 1⟩) ∧
    (∀ (entries : List (String × Nat × GitObj)) (name : String) (rest parents)
      (n1 : String) (o : GitObj),
      name ≠ ".." →
      entries.find? (fun e => e.1 = name) = some (n1, 0xA000, o) →
      gitStep ⟨.tree entries, name :: rest, parents, 0⟩ =
        .error "Symlink limit reached (possibly a cyclic reference)") ∧
    GitTreeFileSystem.load ⟨chainTree 41⟩ "s0" =
      .error "Symlink limit reached (possibly a cyclic reference)" ∧
    GitTreeFileSystem.load ⟨chainTree 39⟩ "s0" = .ok "hello" := by
  refine ⟨?_, ?_, by decide, by decide⟩
  · intro entries name rest parents limit n1 content hname hlimit hfind
    simp [gitStep, hname, hfind, hlimit]
  · intro entries name rest parents n1 o hname hfind
    simp [gitStep, hname, hfind]

/-- Witness for C3: the symlink-step clauses applied to a concrete one-entry
tree. -/
theorem c3_symlink_budget_witness :
    (("s" : String) ≠ ".." ∧ (5 : Nat) ≠ 0 ∧
      ([("s", 0xA000, GitObj.blob "t")].find? (fun e => e.1 = "s")) =
        some ("s", 0xA000, GitObj.blob "t") ∧
      gitStep ⟨.tree [("s", 0xA000, GitObj.blob "t")], ["s"], [], 5⟩ =
        .ok ⟨.tree [("s", 0xA000, GitObj.blob "t")], get_components "t" ++ [], [], 4⟩) ∧
    gitStep ⟨.tree [("s", 0xA000, GitObj.blob "t")], ["s"], [], 0⟩ =
      .error "Symlink limit reached (possibly a cyclic reference)" :=
  ⟨⟨by decide, by decide, by rfl,
    c3_symlink_budget.1 [("s", 0xA000, GitObj.blob "t")] "s" [] [] 5 "s" "t"
      (by decide) (by decide) (by rfl)⟩,
    c3_symlink_budget.2.1 [("s", 0xA000, GitObj.blob "t")] "s" [] [] "s"
      (GitObj.blob "t") (by decide) (by rfl)⟩

theorem and_1024_eq_mod (d : Nat) : d &&& 0x3FF = d % 1024 := by
  have h := Nat.and_pow_two_sub_one_eq_mod d 10
  norm_num at h
  exact h

theorem and_bit10_eq_testBit (d : Nat) : (d &&& 0x400 != 0) = d.testBit 10 := by
  have h : d &&& 0x400 = (d.testBit 10).toNat * 1024 := by
    have h2 := Nat.and_two_pow d 10
    norm_num at h2
    exact h2
  rw [h]
  cases hb : d.testBit 10 <;> simp

theorem and_bit11_eq_testBit (d : Nat) : (d &&& 0x800 != 0) = d.testBit 11 := by
  have h : d &&& 0x800 = (d.testBit 11).toNat * 2048 := by
    have h2 := Nat.and_two_pow d 11
    norm_num at h2
    exact h2
  rw [h]
  cases hb : d.testBit 11 <;> simp

/-- C5: renderScreenWord (the per-word body of render_screens) decodes a
screen data word as tile-table index = low 10 bits, screen-level flip_x =
bit 10, flip_y = bit 11; flip_x swaps the left/right quadrant pairs and
inverts each quadrant's own flip_x, flip_y swaps the top/bottom pairs and
inverts each quadrant's own flip_y, and the composite tile is painted with
pixel origin (screen.x*256 + (i mod 16)*16, screen.y*256 + (i div 16)*16).
With both bits set, quadrants A B / C D render as D C / B A, each flipped in
both axes. -/
theorem c5_screen_word_decode (ts : SCETileset) (img : Image) (sx sy i d : Nat)
    (A B C D : Tile8x8)
    (ht : ts.tiles[d % 1024]? = some ⟨A, B, C, D⟩) :
    renderScreenWord ts (sx * 16) (sy * 16) img i d =
      render_tile_16x16 img (sx * 256 + i % 16 * 16) (sy * 256 + i / 16 * 16)
        (if d.testBit 11 then
          (if d.testBit 10 then ⟨invFlipXY D, invFlipXY C, invFlipXY B, invFlipXY A⟩
           else ⟨invFlipY C, invFlipY D, invFlipY A, invFlipY B⟩)
         else
          (if d.testBit 10 then ⟨invFlipX B, invFlipX A, invFlipX D, invFlipX C⟩
           else ⟨A, B, C, D⟩)) ts := by
  have hx16 : (i % 16 + sx * 16) * 16 = sx * 256 + i % 16 * 16 := by ring
  have hy16 : (i / 16 + sy * 16) * 16 = sy * 256 + i / 16 * 16 := by ring
  simp only [renderScreenWord, and_1024_eq_mod, and_bit10_eq_testBit, and_bit11_eq_testBit,
    ht, hx16, hy16]
  cases h10 : d.testBit 10 <;> cases h11 : d.testBit 11 <;>
    simp [invFlipX, invFlipY, invFlipXY]

/-- Witness for C5: the both-flips scenario on the concrete four-quadrant
tileset, word 0xC00 (index 0, both flip bits set). -/
theorem c5_screen_word_decode_witness :
    (quadTileset.tiles[(0xC00 : Nat) % 1024]? =
      some ⟨⟨1, 0, false, false, false⟩, ⟨2, 0, true, false, false⟩,
            ⟨3, 0, false, true, false⟩, ⟨4, 0, false, false, true⟩⟩) ∧
    renderScreenWord quadTileset (0 * 16) (0 * 16) (Image.new 16 16) 0 0xC00 =
      render_tile_16x16 (Image.new 16 16) (0 * 256 + 0 % 16 * 16) (0 * 256 + 0 / 16 * 16)
        (if (0xC00 : Nat).testBit 11 then
          (if (0xC00 : Nat).testBit 10 then
            ⟨invFlipXY ⟨4, 0, false, false, true⟩, invFlipXY ⟨3, 0, false, true, false⟩,
             invFlipXY ⟨2, 0, true, false, false⟩, invFlipXY ⟨1, 0, false, false, false⟩⟩
           else
            ⟨invFlipY ⟨3, 0, false, true, false⟩, invFlipY ⟨4, 0, false, false, true⟩,
             invFlipY ⟨1, 0, false, false, false⟩, invFlipY ⟨2, 0, true, false, false⟩⟩)
         else
          (if (0xC00 : Nat).testBit 10 then
            ⟨invFlipX ⟨2, 0, true, false, false⟩, invFlipX ⟨1, 0, false, false, false⟩,
             invFlipX ⟨4, 0, false, false, true⟩, invFlipX ⟨3, 0, false, true, false⟩⟩
           else
            ⟨⟨1, 0, false, false, false⟩, ⟨2, 0, true, false, false⟩,
             ⟨3, 0, false, true, false⟩, ⟨4, 0, false, false, true⟩⟩)) quadTileset :=
  ⟨by rfl,
    c5_screen_word_decode quadTileset (Image.new 16 16) 0 0 0 0xC00 _ _ _ _ (by rfl)⟩

theorem renderTilePixel_noerr (ts : SCETileset) (gfx : List (List Nat)) (tile : Tile8x8)
    (x0 y0 : Nat) (img : Image) (y x : Nat) (s : String) :
    renderTilePixel ts gfx tile x0 y0 img y x ≠ .error (.err s) := by
  have hset : ∀ (im : Image) (a b : Nat) (col : List Nat),
      im.set_pixel a b col ≠ .error (.err s) := by
    intro im a b col
    simp only [Image.set_pixel]
    split <;> simp
  cases hfx : tile.flip_x <;> cases hfy : tile.flip_y <;>
    simp only [renderTilePixel, hfx, hfy, Bool.false_eq_true, if_true, if_false] <;>
    [skip; skip; skip; skip] <;>
  · split
    · simp
    · split
      · simp
      · apply hset

theorem render_tile_8x8_noerr (img : Image) (x0 y0 : Nat) (tile : Tile8x8)
    (ts : SCETileset) (s : String) :
    render_tile_8x8 img x0 y0 tile ts ≠ .error (.err s) := by
  unfold render_tile_8x8
  cases ts.gfx[tile.idx]? with
  | none => simp
  | some gfx =>
    exact foldlM_noerr _ _
      (fun b a _ s1 => foldlM_noerr _ _
        (fun b2 a2 _ s2 => renderTilePixel_noerr ts gfx tile x0 y0 b2 a a2 s2) b s1)
      img s

theorem renderBGBlock_noerr (ts : SCETileset) (img : Image) (d : BGDataData) (s : String) :
    renderBGBlock ts img d ≠ .error (.err s) := by
  simp only [renderBGBlock]
  split
  · simp
  · split
    · exact foldlM_noerr _ _
        (fun b a _ s1 => foldlM_noerr _ _
          (fun b2 a2 _ s2 => foldlM_noerr _ _
            (fun b3 a3 _ s3 => render_tile_8x8_noerr b3 _ _ _ ts s3) b2 s2) b s1)
        img s
    · split
      · refine foldlM_noerr _ _
          (fun b a _ s1 => foldlM_noerr _ _
            (fun b2 a2 _ s2 => foldlM_noerr _ _
              (fun b3 a3 _ s3 => ?_) b2 s2) b s1)
          img s
        split
        · exact render_tile_8x8_noerr b3 _ _ _ ts s3
        · exact render_tile_8x8_noerr b3 _ _ _ ts s3
      · simp

theorem render_bgdata_noerr (bg : BGData) (img : Image) (ts : SCETileset) (s : String) :
    render_bgdata bg img ts ≠ .error (.err s) := by
  exact foldlM_noerr _ _ (fun b a _ s1 => renderBGBlock_noerr ts b a s1) img s

theorem bg2048_inner (ts : SCETileset) (sy sx2 : Nat) (tiles : List Tile8x8)
    (h : tiles.length = 2048) (b : Image) :
    tiles.enum.foldlM (fun img p =>
      if p.1 < 1024 then
        render_tile_8x8 img (sx2 * 512 + p.1 % 32 * 8) (sy * 256 + p.1 / 32 * 8) p.2 ts
      else
        render_tile_8x8 img (sx2 * 512 + 256 + p.1 % 32 * 8)
          (sy * 256 + (p.1 - 1024) / 32 * 8) p.2 ts) b =
    ((tiles.take 1024).enum.foldlM (fun img p =>
        render_tile_8x8 img (sx2 * 512 + p.1 % 32 * 8) (sy * 256 + p.1 / 32 * 8) p.2 ts) b >>=
      fun b1 => (tiles.drop 1024).enum.foldlM (fun img p =>
        render_tile_8x8 img (sx2 * 512 + 256 + p.1 % 32 * 8)
          (sy * 256 + p.1 / 32 * 8) p.2 ts) b1) := by
  have hlen : (tiles.take 1024).length = 1024 := by
    simp [List.length_take]
    omega
  conv_lhs => rw [(List.take_append_drop 1024 tiles).symm]
  rw [List.enum_append, List.foldlM_append, hlen]
  have e1 : ∀ b0 : Image, (tiles.take 1024).enum.foldlM (fun img p =>
      if p.1 < 1024 then
        render_tile_8x8 img (sx2 * 512 + p.1 % 32 * 8) (sy * 256 + p.1 / 32 * 8) p.2 ts
      else
        render_tile_8x8 img (sx2 * 512 + 256 + p.1 % 32 * 8)
          (sy * 256 + (p.1 - 1024) / 32 * 8) p.2 ts) b0 =
      (tiles.take 1024).enum.foldlM (fun img p =>
        render_tile_8x8 img (sx2 * 512 + p.1 % 32 * 8) (sy * 256 + p.1 / 32 * 8) p.2 ts) b0 := by
    intro b0
    apply foldlM_congr_mem
    intro b1 p hp
    have hplt := (mem_enum_facts hp).1
    rw [hlen] at hplt
    rw [if_pos hplt]
  have e2 : ∀ b0 : Image, ((tiles.drop 1024).enumFrom 1024).foldlM (fun img p =>
      if p.1 < 1024 then
        render_tile_8x8 img (sx2 * 512 + p.1 % 32 * 8) (sy * 256 + p.1 / 32 * 8) p.2 ts
      else
        render_tile_8x8 img (sx2 * 512 + 256 + p.1 % 32 * 8)
          (sy * 256 + (p.1 - 1024) / 32 * 8) p.2 ts) b0 =
      (tiles.drop 1024).enum.foldlM (fun img p =>
        render_tile_8x8 img (sx2 * 512 + 256 + p.1 % 32 * 8)
          (sy * 256 + p.1 / 32 * 8) p.2 ts) b0 := by
    intro b0
    rw [foldlM_enum_shift]
    apply foldlM_congr_mem
    intro b1 p hp
    have h1 : ¬ (p.1 + 1024 < 1024) := by omega
    have h2 : (p.1 + 1024) % 32 = p.1 % 32 := by omega
    have h3 : p.1 + 1024 - 1024 = p.1 := by omega
    simp only [if_neg h1, h2, h3]
  rw [e1 b]
  have : (fun b1 => ((tiles.drop 1024).enumFrom 1024).foldlM (fun img p =>
      if p.1 < 1024 then
        render_tile_8x8 img (sx2 * 512 + p.1 % 32 * 8) (sy * 256 + p.1 / 32 * 8) p.2 ts
      else
        render_tile_8x8 img (sx2 * 512 + 256 + p.1 % 32 * 8)
          (sy * 256 + (p.1 - 1024) / 32 * 8) p.2 ts) b1) =
      (fun b1 => (tiles.drop 1024).enum.foldlM (fun img p =>
        render_tile_8x8 img (sx2 * 512 + 256 + p.1 % 32 * 8)
          (sy * 256 + p.1 / 32 * 8) p.2 ts) b1) := funext fun b1 => e2 b1
  rw [this]

/-- C6: render_bgdata paints only blocks whose type tag is DECOMP. A block
of exactly 1024 words paints a 32x32 grid of 8x8 tiles tiled over every
256x256 region; a block of exactly 2048 words paints its first 1024 words
into the left 256-pixel half and its second 1024 words into the right half
of every 512x256 region; a block of any other length, and a block with any
other type tag, leaves the image untouched and succeeds; render_bgdata never
returns an error value (its only failure mode is an index panic). -/
theorem c6_render_bgdata_blocks :
    (∀ (ts : SCETileset) (img : Image) (d : BGDataData), d.type_ ≠ "DECOMP" →
      renderBGBlock ts img d = .ok img) ∧
    (∀ (ts : SCETileset) (img : Image) (d : BGDataData),
      d.source.length ≠ 1024 → d.source.length ≠ 2048 →
      renderBGBlock ts img d = .ok img) ∧
    (∀ (ts : SCETileset) (img : Image) (d : BGDataData),
      d.type_ = "DECOMP" → d.source.length = 1024 →
      renderBGBlock ts img d =
        (List.range (img.height / 256)).foldlM (fun im screen_y =>
          (List.range (img.width / 256)).foldlM (fun im2 screen_x =>
            ((d.source.map fun word => decode_8x8_tile (word % 65536)).enum).foldlM
              (fun im3 p => render_tile_8x8 im3 (screen_x * 256 + p.1 % 32 * 8)
                (screen_y * 256 + p.1 / 32 * 8) p.2 ts) im2) im) img) ∧
    (∀ (ts : SCETileset) (img : Image) (d : BGDataData),
      d.type_ = "DECOMP" → d.source.length = 2048 →
      renderBGBlock ts img d =
        (List.range (img.height / 256)).foldlM (fun im screen_y =>
          (List.range (img.width / 512)).foldlM (fun im2 screen_x2 =>
            (((d.source.map fun word => decode_8x8_tile (word % 65536)).take 1024).enum.foldlM
              (fun im3 p => render_tile_8x8 im3 (screen_x2 * 512 + p.1 % 32 * 8)
                (screen_y * 256 + p.1 / 32 * 8) p.2 ts) im2) >>=
              fun imL => ((d.source.map fun word => decode_8x8_tile (word % 65536)).drop
                1024).enum.foldlM
                (fun im3 p => render_tile_8x8 im3 (screen_x2 * 512 + 256 + p.1 % 32 * 8)
                  (screen_y * 256 + p.1 / 32 * 8) p.2 ts) imL) im) img) ∧
    (∀ (bg : BGData) (img : Image) (ts : SCETileset),
      render_bgdata bg img ts = bg.data.foldlM (fun im d => renderBGBlock ts im d) img ∧
      ∀ s, render_bgdata bg img ts ≠ .error (.err s)) := by
  refine ⟨?_, ?_, ?_, ?_, ?_⟩
  · intro ts img d h
    simp [renderBGBlock, h]
  · intro ts img d h1 h2
    simp only [renderBGBlock]
    split
    · rfl
    · rw [if_neg (by simpa using h1), if_neg (by simpa using h2)]
  · intro ts img d htype h1024
    simp only [renderBGBlock, htype]
    rw [if_neg (by simp), if_pos (by simpa using h1024)]
  · intro ts img d htype h2048
    simp only [renderBGBlock, htype]
    rw [if_neg (by simp), if_neg (by simp only [List.length_map]; omega),
      if_pos (by simpa using h2048)]
    apply foldlM_congr_mem
    intro b1 sy _
    apply foldlM_congr_mem
    intro b2 sx2 _
    exact bg2048_inner ts sy sx2 _ (by simpa using h2048) b2
  · intro bg img ts
    exact ⟨rfl, fun s => render_bgdata_noerr bg img ts s⟩

/-- Witness for C6: skip clauses and the never-an-error clause at concrete
inputs. -/
theorem c6_render_bgdata_blocks_witness :
    (("X" : String) ≠ "DECOMP" ∧
      renderBGBlock sampleTileset (Image.new 8 8) ⟨"X", [0], "", ""⟩ = .ok (Image.new 8 8)) ∧
    (([0, 0, 0] : List Nat).length ≠ 1024 ∧ ([0, 0, 0] : List Nat).length ≠ 2048 ∧
      renderBGBlock sampleTileset (Image.new 8 8) ⟨"DECOMP", [0, 0, 0], "", ""⟩ =
        .ok (Image.new 8 8)) :=
  ⟨⟨by decide, c6_render_bgdata_blocks.1 sampleTileset (Image.new 8 8) ⟨"X", [0], "", ""⟩
      (by decide)⟩,
    ⟨by decide, by decide,
      c6_render_bgdata_blocks.2.1 sampleTileset (Image.new 8 8) ⟨"DECOMP", [0, 0, 0], "", ""⟩
        (by decide) (by decide)⟩⟩

theorem combo_bits : ∀ b0 < 2, ∀ b1 < 2, ∀ b2 < 2, ∀ b3 < 2,
    (b0 ||| (b1 <<< 1) ||| (b2 <<< 2) ||| (b3 <<< 3)) &&& 1 = b0 ∧
    ((b0 ||| (b1 <<< 1) ||| (b2 <<< 2) ||| (b3 <<< 3)) >>> 1) &&& 1 = b1 ∧
    ((b0 ||| (b1 <<< 1) ||| (b2 <<< 2) ||| (b3 <<< 3)) >>> 2) &&& 1 = b2 ∧
    ((b0 ||| (b1 <<< 1) ||| (b2 <<< 2) ||| (b3 <<< 3)) >>> 3) &&& 1 = b3 := by decide

theorem combo_lt_16 : ∀ b0 < 2, ∀ b1 < 2, ∀ b2 < 2, ∀ b3 < 2,
    (b0 ||| (b1 <<< 1) ||| (b2 <<< 2) ||| (b3 <<< 3)) < 16 := by decide

theorem byte_from_bits : ∀ B < 256,
    ((B >>> 7) &&& 1) * 128 + ((B >>> 6) &&& 1) * 64 + ((B >>> 5) &&& 1) * 32 +
    ((B >>> 4) &&& 1) * 16 + ((B >>> 3) &&& 1) * 8 + ((B >>> 2) &&& 1) * 4 +
    ((B >>> 1) &&& 1) * 2 + ((B >>> 0) &&& 1) = B := by decide

theorem bits_from_byte (e0 e1 e2 e3 e4 e5 e6 e7 : Nat)
    (h0 : e0 < 2) (h1 : e1 < 2) (h2 : e2 < 2) (h3 : e3 < 2)
    (h4 : e4 < 2) (h5 : e5 < 2) (h6 : e6 < 2) (h7 : e7 < 2) :
    ((e0 * 128 + e1 * 64 + e2 * 32 + e3 * 16 + e4 * 8 + e5 * 4 + e6 * 2 + e7) >>> 7) &&& 1 = e0 ∧
    ((e0 * 128 + e1 * 64 + e2 * 32 + e3 * 16 + e4 * 8 + e5 * 4 + e6 * 2 + e7) >>> 6) &&& 1 = e1 ∧
    ((e0 * 128 + e1 * 64 + e2 * 32 + e3 * 16 + e4 * 8 + e5 * 4 + e6 * 2 + e7) >>> 5) &&& 1 = e2 ∧
    ((e0 * 128 + e1 * 64 + e2 * 32 + e3 * 16 + e4 * 8 + e5 * 4 + e6 * 2 + e7) >>> 4) &&& 1 = e3 ∧
    ((e0 * 128 + e1 * 64 + e2 * 32 + e3 * 16 + e4 * 8 + e5 * 4 + e6 * 2 + e7) >>> 3) &&& 1 = e4 ∧
    ((e0 * 128 + e1 * 64 + e2 * 32 + e3 * 16 + e4 * 8 + e5 * 4 + e6 * 2 + e7) >>> 2) &&& 1 = e5 ∧
    ((e0 * 128 + e1 * 64 + e2 * 32 + e3 * 16 + e4 * 8 + e5 * 4 + e6 * 2 + e7) >>> 1) &&& 1 = e6 ∧
    (e0 * 128 + e1 * 64 + e2 * 32 + e3 * 16 + e4 * 8 + e5 * 4 + e6 * 2 + e7) &&& 1 = e7 := by
  simp only [Nat.shiftRight_eq_div_pow, Nat.and_one_is_mod]
  norm_num
  omega

theorem nibble_from_bits : ∀ v < 16,
    (v &&& 1) ||| (((v >>> 1) &&& 1) <<< 1) ||| (((v >>> 2) &&& 1) <<< 2) |||
      (((v >>> 3) &&& 1) <<< 3) = v := by decide

theorem rangeMap_getD {α : Type} (n : Nat) (f : Nat → α) (i : Nat) (d : α) (h : i < n) :
    ((List.range n).map f).getD i d = f i := by
  simp [List.getD_eq_getElem?_getD, List.getElem?_map, List.getElem?_range h]

theorem decode_entry (data : List Nat) (y x : Nat) (hy : y < 8) (hx : x < 8) :
    ((decode_8x8_tile_data_4bpp data).getD y []).getD x 0 =
      ((data.getD (y * 2) 0 >>> (7 - x)) &&& 1) |||
      (((data.getD (y * 2 + 1) 0 >>> (7 - x)) &&& 1) <<< 1) |||
      (((data.getD (y * 2 + 16) 0 >>> (7 - x)) &&& 1) <<< 2) |||
      (((data.getD (y * 2 + 17) 0 >>> (7 - x)) &&& 1) <<< 3) := by
  unfold decode_8x8_tile_data_4bpp
  rw [rangeMap_getD 8 _ y [] hy, rangeMap_getD 8 _ x 0 hx]

theorem bit_lt_2 (B k : Nat) : (B >>> k) &&& 1 < 2 :=
  Nat.lt_succ_of_le Nat.and_le_right

theorem planeByte_decode0 (data : List Nat) (y : Nat) (hy : y < 8)
    (hB : data.getD (y * 2) 0 < 256) :
    planeByte (decode_8x8_tile_data_4bpp data) y 0 = data.getD (y * 2) 0 := by
  simp only [planeByte]
  rw [decode_entry data y 0 hy (by omega), decode_entry data y 1 hy (by omega),
    decode_entry data y 2 hy (by omega), decode_entry data y 3 hy (by omega),
    decode_entry data y 4 hy (by omega), decode_entry data y 5 hy (by omega),
    decode_entry data y 6 hy (by omega), decode_entry data y 7 hy (by omega)]
  simp only [Nat.shiftRight_zero]
  have hc : ∀ k : Nat,
      (((data.getD (y * 2) 0 >>> k) &&& 1) |||
       (((data.getD (y * 2 + 1) 0 >>> k) &&& 1) <<< 1) |||
       (((data.getD (y * 2 + 16) 0 >>> k) &&& 1) <<< 2) |||
       (((data.getD (y * 2 + 17) 0 >>> k) &&& 1) <<< 3)) &&& 1 =
      (data.getD (y * 2) 0 >>> k) &&& 1 := fun k =>
    (combo_bits _ (bit_lt_2 _ _) _ (bit_lt_2 _ _) _ (bit_lt_2 _ _) _ (bit_lt_2 _ _)).1
  rw [hc, hc, hc, hc, hc, hc, hc, hc]
  have hB8 := byte_from_bits (data.getD (y * 2) 0) hB
  norm_num at hB8 ⊢
  omega

theorem planeByte_decode1 (data : List Nat) (y : Nat) (hy : y < 8)
    (hB : data.getD (y * 2 + 1) 0 < 256) :
    planeByte (decode_8x8_tile_data_4bpp data) y 1 = data.getD (y * 2 + 1) 0 := by
  simp only [planeByte]
  rw [decode_entry data y 0 hy (by omega), decode_entry data y 1 hy (by omega),
    decode_entry data y 2 hy (by omega), decode_entry data y 3 hy (by omega),
    decode_entry data y 4 hy (by omega), decode_entry data y 5 hy (by omega),
    decode_entry data y 6 hy (by omega), decode_entry data y 7 hy (by omega)]
  have hc : ∀ k : Nat,
      ((((data.getD (y * 2) 0 >>> k) &&& 1) |||
       (((data.getD (y * 2 + 1) 0 >>> k) &&& 1) <<< 1) |||
       (((data.getD (y * 2 + 16) 0 >>> k) &&& 1) <<< 2) |||
       (((data.getD (y * 2 + 17) 0 >>> k) &&& 1) <<< 3)) >>> 1) &&& 1 =
      (data.getD (y * 2 + 1) 0 >>> k) &&& 1 := fun k =>
    (combo_bits _ (bit_lt_2 _ _) _ (bit_lt_2 _ _) _ (bit_lt_2 _ _) _ (bit_lt_2 _ _)).2.1
  rw [hc, hc, hc, hc, hc, hc, hc, hc]
  have hB8 := byte_from_bits (data.getD (y * 2 + 1) 0) hB
  norm_num at hB8 ⊢
  omega

theorem planeByte_decode2 (data : List Nat) (y : Nat) (hy : y < 8)
    (hB : data.getD (y * 2 + 16) 0 < 256) :
    planeByte (decode_8x8_tile_data_4bpp data) y 2 = data.getD (y * 2 + 16) 0 := by
  simp only [planeByte]
  rw [decode_entry data y 0 hy (by omega), decode_entry data y 1 hy (by omega),
    decode_entry data y 2 hy (by omega), decode_entry data y 3 hy (by omega),
    decode_entry data y 4 hy (by omega), decode_entry data y 5 hy (by omega),
    decode_entry data y 6 hy (by omega), decode_entry data y 7 hy (by omega)]
  have hc : ∀ k : Nat,
      ((((data.getD (y * 2) 0 >>> k) &&& 1) |||
       (((data.getD (y * 2 + 1) 0 >>> k) &&& 1) <<< 1) |||
       (((data.getD (y * 2 + 16) 0 >>> k) &&& 1) <<< 2) |||
       (((data.getD (y * 2 + 17) 0 >>> k) &&& 1) <<< 3)) >>> 2) &&& 1 =
      (data.getD (y * 2 + 16) 0 >>> k) &&& 1 := fun k =>
    (combo_bits _ (bit_lt_2 _ _) _ (bit_lt_2 _ _) _ (bit_lt_2 _ _) _ (bit_lt_2 _ _)).2.2.1
  rw [hc, hc, hc, hc, hc, hc, hc, hc]
  have hB8 := byte_from_bits (data.getD (y * 2 + 16) 0) hB
  norm_num at hB8 ⊢
  omega

theorem planeByte_decode3 (data : List Nat) (y : Nat) (hy : y < 8)
    (hB : data.getD (y * 2 + 17) 0 < 256) :
    planeByte (decode_8x8_tile_data_4bpp data) y 3 = data.getD (y * 2 + 17) 0 := by
  simp only [planeByte]
  rw [decode_entry data y 0 hy (by omega), decode_entry data y 1 hy (by omega),
    decode_entry data y 2 hy (by omega), decode_entry data y 3 hy (by omega),
    decode_entry data y 4 hy (by omega), decode_entry data y 5 hy (by omega),
    decode_entry data y 6 hy (by omega), decode_entry data y 7 hy (by omega)]
  have hc : ∀ k : Nat,
      ((((data.getD (y * 2) 0 >>> k) &&& 1) |||
       (((data.getD (y * 2 + 1) 0 >>> k) &&& 1) <<< 1) |||
       (((data.getD (y * 2 + 16) 0 >>> k) &&& 1) <<< 2) |||
       (((data.getD (y * 2 + 17) 0 >>> k) &&& 1) <<< 3)) >>> 3) &&& 1 =
      (data.getD (y * 2 + 17) 0 >>> k) &&& 1 := fun k =>
    (combo_bits _ (bit_lt_2 _ _) _ (bit_lt_2 _ _) _ (bit_lt_2 _ _) _ (bit_lt_2 _ _)).2.2.2
  rw [hc, hc, hc, hc, hc, hc, hc, hc]
  have hB8 := byte_from_bits (data.getD (y * 2 + 17) 0) hB
  norm_num at hB8 ⊢
  omega

theorem encode_decode (data : List Nat) (hlen : data.length = 32)
    (hbytes : ∀ b ∈ data, b < 256) :
    encode_8x8_tile_data_4bpp (decode_8x8_tile_data_4bpp data) = data := by
  have hb : ∀ i, i < 32 → data.getD i 0 < 256 := by
    intro i hi
    rw [List.getD_eq_getElem data 0 (by omega)]
    exact hbytes _ (List.getElem_mem _)
  apply List.ext_getElem
  · simp [encode_8x8_tile_data_4bpp, hlen]
  · intro i hi1 hi2
    have hi32 : i < 32 := by
      simpa [encode_8x8_tile_data_4bpp] using hi1
    simp only [encode_8x8_tile_data_4bpp, List.getElem_map, List.getElem_range]
    by_cases h16 : i < 16
    · rw [if_pos h16]
      rcases Nat.mod_two_eq_zero_or_one i with hp | hp
      · rw [hp, planeByte_decode0 data (i / 2) (by omega) (hb _ (by omega))]
        have he : i / 2 * 2 = i := by omega
        rw [he, List.getD_eq_getElem data 0 (by omega)]
      · rw [hp, planeByte_decode1 data (i / 2) (by omega) (hb _ (by omega))]
        have he : i / 2 * 2 + 1 = i := by omega
        rw [he, List.getD_eq_getElem data 0 (by omega)]
    · rw [if_neg h16]
      rcases Nat.mod_two_eq_zero_or_one (i - 16) with hp | hp
      · have h2 : 2 + (i - 16) % 2 = 2 := by omega
        rw [h2, planeByte_decode2 data ((i - 16) / 2) (by omega) (hb _ (by omega))]
        have he : (i - 16) / 2 * 2 + 16 = i := by omega
        rw [he, List.getD_eq_getElem data 0 (by omega)]
      · have h2 : 2 + (i - 16) % 2 = 3 := by omega
        rw [h2, planeByte_decode3 data ((i - 16) / 2) (by omega) (hb _ (by omega))]
        have he : (i - 16) / 2 * 2 + 17 = i := by omega
        rw [he, List.getD_eq_getElem data 0 (by omega)]

theorem decode_encode (m : List (List Nat)) (hm : m.length = 8)
    (hrow : ∀ row ∈ m, row.length = 8) (hv : ∀ row ∈ m, ∀ v ∈ row, v < 16) :
    decode_8x8_tile_data_4bpp (encode_8x8_tile_data_4bpp m) = m := by
  have hE : ∀ a, a < 32 → (encode_8x8_tile_data_4bpp m).getD a 0 =
      if a < 16 then planeByte m (a / 2) (a % 2)
      else planeByte m ((a - 16) / 2) (2 + (a - 16) % 2) := by
    intro a ha
    simp [encode_8x8_tile_data_4bpp, List.getD_eq_getElem?_getD, List.getElem?_map,
      List.getElem?_range ha]
  have hentry : ∀ y x, y < 8 → x < 8 →
      ((decode_8x8_tile_data_4bpp (encode_8x8_tile_data_4bpp m)).getD y []).getD x 0 =
      (m.getD y []).getD x 0 := by
    intro y x hy hx
    rw [decode_entry _ y x hy hx]
    rw [hE (y * 2) (by omega), hE (y * 2 + 1) (by omega),
      hE (y * 2 + 16) (by omega), hE (y * 2 + 17) (by omega)]
    rw [if_pos (show y * 2 < 16 by omega), if_pos (show y * 2 + 1 < 16 by omega),
      if_neg (show ¬ y * 2 + 16 < 16 by omega), if_neg (show ¬ y * 2 + 17 < 16 by omega)]
    rw [show y * 2 / 2 = y by omega, show y * 2 % 2 = 0 by omega,
      show (y * 2 + 1) / 2 = y by omega, show (y * 2 + 1) % 2 = 1 by omega,
      show (y * 2 + 16 - 16) / 2 = y by omega, show 2 + (y * 2 + 16 - 16) % 2 = 2 by omega,
      show (y * 2 + 17 - 16) / 2 = y by omega, show 2 + (y * 2 + 17 - 16) % 2 = 3 by omega]
    have hvx : (m.getD y []).getD x 0 < 16 := by
      have hym : m.getD y [] ∈ m := by
        rw [List.getD_eq_getElem m [] (by omega)]
        exact List.getElem_mem _
      have hxr : (m.getD y []).getD x 0 ∈ m.getD y [] := by
        rw [List.getD_eq_getElem _ 0 (by rw [hrow _ hym]; omega)]
        exact List.getElem_mem _
      exact hv _ hym _ hxr
    have G : ∀ p j : Nat, j < 8 → (planeByte m y p >>> (7 - j)) &&& 1 =
        ((m.getD y []).getD j 0 >>> p) &&& 1 := by
      intro p j hj
      obtain ⟨g0, g1, g2, g3, g4, g5, g6, g7⟩ := bits_from_byte
        (((m.getD y []).getD 0 0 >>> p) &&& 1) (((m.getD y []).getD 1 0 >>> p) &&& 1)
        (((m.getD y []).getD 2 0 >>> p) &&& 1) (((m.getD y []).getD 3 0 >>> p) &&& 1)
        (((m.getD y []).getD 4 0 >>> p) &&& 1) (((m.getD y []).getD 5 0 >>> p) &&& 1)
        (((m.getD y []).getD 6 0 >>> p) &&& 1) (((m.getD y []).getD 7 0 >>> p) &&& 1)
        (bit_lt_2 _ _) (bit_lt_2 _ _) (bit_lt_2 _ _) (bit_lt_2 _ _)
        (bit_lt_2 _ _) (bit_lt_2 _ _) (bit_lt_2 _ _) (bit_lt_2 _ _)
      simp only [planeByte]
      interval_cases j
      · exact g0
      · exact g1
      · exact g2
      · exact g3
      · exact g4
      · exact g5
      · exact g6
      · exact g7
    rw [G 0 x hx, G 1 x hx, G 2 x hx, G 3 x hx]
    simp only [Nat.shiftRight_zero]
    exact nibble_from_bits _ hvx
  have hdl : (decode_8x8_tile_data_4bpp (encode_8x8_tile_data_4bpp m)).length = 8 := by
    simp [decode_8x8_tile_data_4bpp]
  apply List.ext_getElem
  · rw [hdl, hm]
  · intro y hy1 hy2
    have hy8 : y < 8 := by rw [hm] at hy2; exact hy2
    have hyd : y < (decode_8x8_tile_data_4bpp (encode_8x8_tile_data_4bpp m)).length := by
      rw [hdl]; exact hy8
    have hrl : (decode_8x8_tile_data_4bpp (encode_8x8_tile_data_4bpp m))[y].length = 8 := by
      simp [decode_8x8_tile_data_4bpp]
    have hml : m[y].length = 8 := hrow _ (List.getElem_mem _)
    apply List.ext_getElem
    · rw [hrl, hml]
    · intro x hx1 hx2
      have hx8 : x < 8 := by rw [hrl] at hx1; exact hx1
      have h := hentry y x hy8 hx8
      rw [List.getD_eq_getElem _ [] hyd, List.getD_eq_getElem _ 0 (by rw [hrl]; exact hx8),
        List.getD_eq_getElem m [] (by rw [hm]; exact hy8),
        List.getD_eq_getElem _ 0 (by rw [hml]; exact hx8)] at h
      exact h

/-- C7: decode_8x8_tile_data_4bpp maps a 32-byte block to the 8x8 matrix
whose entry at row y, column x assembles bit (7-x) of bytes 2y, 2y+1, 2y+16,
2y+17 as bit0..bit3; every entry is below 16; and decoding is a bijection
between 32-byte blocks and 8x8 matrices of 4-bit indices, witnessed by the
spec's inverse packer round-tripping in both directions. -/
theorem c7_decode_4bpp_roundtrip :
    (∀ (data : List Nat) (y x : Nat), y < 8 → x < 8 →
      ((decode_8x8_tile_data_4bpp data).getD y []).getD x 0 =
        ((data.getD (y * 2) 0 >>> (7 - x)) &&& 1) |||
        (((data.getD (y * 2 + 1) 0 >>> (7 - x)) &&& 1) <<< 1) |||
        (((data.getD (y * 2 + 16) 0 >>> (7 - x)) &&& 1) <<< 2) |||
        (((data.getD (y * 2 + 17) 0 >>> (7 - x)) &&& 1) <<< 3)) ∧
    (∀ (data : List Nat) (y x : Nat),
      ((decode_8x8_tile_data_4bpp data).getD y []).getD x 0 < 16) ∧
    (∀ data : List Nat, data.length = 32 → (∀ b ∈ data, b < 256) →
      encode_8x8_tile_data_4bpp (decode_8x8_tile_data_4bpp data) = data) ∧
    (∀ m : List (List Nat), m.length = 8 → (∀ row ∈ m, row.length = 8) →
      (∀ row ∈ m, ∀ v ∈ row, v < 16) →
      decode_8x8_tile_data_4bpp (encode_8x8_tile_data_4bpp m) = m) := by
  refine ⟨decode_entry, ?_, encode_decode, decode_encode⟩
  intro data y x
  by_cases hy : y < 8
  · by_cases hx : x < 8
    · rw [decode_entry data y x hy hx]
      exact combo_lt_16 _ (bit_lt_2 _ _) _ (bit_lt_2 _ _) _ (bit_lt_2 _ _) _ (bit_lt_2 _ _)
    · have hrl : ((decode_8x8_tile_data_4bpp data).getD y []).length = 8 := by
        rw [List.getD_eq_getElem _ [] (by simp [decode_8x8_tile_data_4bpp]; omega)]
        simp [decode_8x8_tile_data_4bpp]
      rw [List.getD_eq_getElem?_getD, List.getElem?_eq_none (by omega)]
      simp
  · rw [List.getD_eq_getElem?_getD (decode_8x8_tile_data_4bpp data),
      List.getElem?_eq_none (by simp [decode_8x8_tile_data_4bpp]; omega)]
    simp

/-- Witness for C7: the round trips evaluated on a concrete 32-byte block
and a concrete 8x8 matrix. -/
theorem c7_decode_4bpp_roundtrip_witness :
    (((List.range 32).map fun i => (i * 37 + 11) % 256).length = 32 ∧
      (∀ b ∈ (List.range 32).map fun i => (i * 37 + 11) % 256, b < 256) ∧
      encode_8x8_tile_data_4bpp (decode_8x8_tile_data_4bpp
        ((List.range 32).map fun i => (i * 37 + 11) % 256)) =
        ((List.range 32).map fun i => (i * 37 + 11) % 256)) ∧
    ((List.replicate 8 (List.replicate 8 5)).length = 8 ∧
      decode_8x8_tile_data_4bpp (encode_8x8_tile_data_4bpp
        (List.replicate 8 (List.replicate 8 5))) = List.replicate 8 (List.replicate 8 5)) :=
  ⟨⟨by decide, by decide,
    c7_decode_4bpp_roundtrip.2.2.1 _ (by decide) (by decide)⟩,
   ⟨by decide,
    c7_decode_4bpp_roundtrip.2.2.2 _ (by decide) (by decide) (by decide)⟩⟩

/-- C8: for each of the 64 destination pixels, render_tile_8x8 (whose loop
body is renderTilePixel) mirrors the source coordinate inside the 8x8 block
per flip_x/flip_y before the lookup; a looked-up color index of 0 writes
nothing, leaving the destination pixel (and so its alpha of 0) untouched;
otherwise it writes the palette color of slot palette*16+color through
set_pixel, which stores the three channels and alpha 255. -/
theorem c8_render_tile_pixel :
    (∀ (image : Image) (x0 y0 : Nat) (tile : Tile8x8) (ts : SCETileset)
      (gfx : List (List Nat)), ts.gfx[tile.idx]? = some gfx →
      render_tile_8x8 image x0 y0 tile ts =
        (List.range 8).foldlM (fun img y =>
          (List.range 8).foldlM (fun img x => renderTilePixel ts gfx tile x0 y0 img y x) img)
          image) ∧
    (∀ (ts : SCETileset) (gfx : List (List Nat)) (tile : Tile8x8) (x0 y0 : Nat)
      (img : Image) (y x : Nat),
      (gfx.getD (if tile.flip_y then 7 - y else y) []).getD
        (if tile.flip_x then 7 - x else x) 0 = 0 →
      renderTilePixel ts gfx tile x0 y0 img y x = .ok img) ∧
    (∀ (ts : SCETileset) (gfx : List (List Nat)) (tile : Tile8x8) (x0 y0 : Nat)
      (img : Image) (y x : Nat),
      (gfx.getD (if tile.flip_y then 7 - y else y) []).getD
        (if tile.flip_x then 7 - x else x) 0 ≠ 0 →
      tile.palette * 16 + (gfx.getD (if tile.flip_y then 7 - y else y) []).getD
        (if tile.flip_x then 7 - x else x) 0 < ts.palette.length →
      renderTilePixel ts gfx tile x0 y0 img y x =
        img.set_pixel (x0 + x) (y0 + y)
          (ts.palette.getD (tile.palette * 16 +
            (gfx.getD (if tile.flip_y then 7 - y else y) []).getD
              (if tile.flip_x then 7 - x else x) 0) [])) ∧
    (∀ (img : Image) (x y : Nat) (color : List Nat),
      x < img.width → y < img.height → img.pixels.length = img.width * img.height * 4 →
      ∃ p1, img.set_pixel x y color = .ok ⟨img.width, img.height, p1⟩ ∧
        p1.length = img.pixels.length ∧
        p1.getD ((y * img.width + x) * 4) 0 = color.getD 0 0 ∧
        p1.getD ((y * img.width + x) * 4 + 1) 0 = color.getD 1 0 ∧
        p1.getD ((y * img.width + x) * 4 + 2) 0 = color.getD 2 0 ∧
        p1.getD ((y * img.width + x) * 4 + 3) 0 = 255 ∧
        ∀ j, j < (y * img.width + x) * 4 ∨ (y * img.width + x) * 4 + 3 < j →
          p1.getD j 0 = img.pixels.getD j 0) := by
  refine ⟨?_, ?_, ?_, set_pixel_spec⟩
  · intro image x0 y0 tile ts gfx h
    unfold render_tile_8x8
    rw [h]
  · intro ts gfx tile x0 y0 img y x hc
    simp only [renderTilePixel, hc]
    simp
  · intro ts gfx tile x0 y0 img y x hc hslot
    simp only [renderTilePixel]
    rw [if_neg hc, List.getElem?_eq_getElem hslot, List.getD_eq_getElem _ [] hslot]

/-- Witness for C8: the write case and set_pixel semantics on the concrete
solid tileset (color index 3, palette slot 3), plus the loop-body tie-in. -/
theorem c8_render_tile_pixel_witness :
    (sampleTileset.gfx[plainQuad.idx]? = some solidGfx3 ∧
      render_tile_8x8 (Image.new 8 8) 0 0 plainQuad sampleTileset =
        (List.range 8).foldlM (fun img y =>
          (List.range 8).foldlM (fun img x =>
            renderTilePixel sampleTileset solidGfx3 plainQuad 0 0 img y x) img)
          (Image.new 8 8)) ∧
    ((solidGfx3.getD (if plainQuad.flip_y then 7 - 0 else 0) []).getD
        (if plainQuad.flip_x then 7 - 0 else 0) 0 ≠ 0 ∧
      plainQuad.palette * 16 + (solidGfx3.getD (if plainQuad.flip_y then 7 - 0 else 0) []).getD
        (if plainQuad.flip_x then 7 - 0 else 0) 0 < sampleTileset.palette.length ∧
      renderTilePixel sampleTileset solidGfx3 plainQuad 0 0 (Image.new 8 8) 0 0 =
        (Image.new 8 8).set_pixel (0 + 0) (0 + 0)
          (sampleTileset.palette.getD (plainQuad.palette * 16 +
            (solidGfx3.getD (if plainQuad.flip_y then 7 - 0 else 0) []).getD
              (if plainQuad.flip_x then 7 - 0 else 0) 0) [])) :=
  ⟨⟨by rfl, c8_render_tile_pixel.1 (Image.new 8 8) 0 0 plainQuad sampleTileset solidGfx3
      (by rfl)⟩,
   ⟨by decide, by decide,
     c8_render_tile_pixel.2.2.1 sampleTileset solidGfx3 plainQuad 0 0 (Image.new 8 8) 0 0
       (by decide) (by decide)⟩⟩

theorem getD_replicate_zero (n j : Nat) : (List.replicate n (0 : Nat)).getD j 0 = 0 := by
  by_cases h : j < n
  · rw [List.getD_eq_getElem _ _ (by simpa using h)]
    simp
  · rw [List.getD_eq_getElem?_getD, List.getElem?_eq_none (by simpa using h)]
    rfl

theorem pixel_index_inj {w x y x1 y1 : Nat} (hx : x < w) (hx1 : x1 < w)
    (h : y * w + x = y1 * w + x1) : x = x1 ∧ y = y1 := by
  have h1 : (y * w + x) % w = x := by
    rw [Nat.mul_comm y w, Nat.mul_add_mod]
    exact Nat.mod_eq_of_lt hx
  have h2 : (y1 * w + x1) % w = x1 := by
    rw [Nat.mul_comm y1 w, Nat.mul_add_mod]
    exact Nat.mod_eq_of_lt hx1
  have hxx : x = x1 := by rw [← h1, ← h2, h]
  refine ⟨hxx, ?_⟩
  have hw : 0 < w := by omega
  have : y * w = y1 * w := by omega
  exact Nat.eq_of_mul_eq_mul_right hw this

theorem min_scaled (c : Nat) (b : ℚ) (hc : c < 256) (hb0 : 0 ≤ b) (hb1 : b ≤ 1) :
    min (((c : ℚ) * b).floor.toNat) 255 = ((c : ℚ) * b).floor.toNat := by
  have h1 : (c : ℚ) * b ≤ 255 := by
    have hcq : (c : ℚ) ≤ 255 := by exact_mod_cast Nat.le_of_lt_succ hc
    calc (c : ℚ) * b ≤ 255 * 1 := mul_le_mul hcq hb1 hb0 (by norm_num)
    _ = 255 := by norm_num
  have h2 : ((c : ℚ) * b).floor ≤ 255 := by
    have := Int.floor_mono h1
    simpa using this
  have h3 : ((c : ℚ) * b).floor.toNat ≤ 255 := by omega
  exact Nat.min_eq_left h3

theorem diffPixel_spec (img1 img2 img : Image) (b : ℚ) (x y : Nat)
    (hw2 : img2.width = img1.width) (hh2 : img2.height = img1.height)
    (hl1 : img1.pixels.length = img1.width * img1.height * 4)
    (hl2 : img2.pixels.length = img2.width * img2.height * 4)
    (hx : x < img1.width) (hy : y < img1.height) :
    (([img1.pixels.getD ((y * img1.width + x) * 4) 0,
       img1.pixels.getD ((y * img1.width + x) * 4 + 1) 0,
       img1.pixels.getD ((y * img1.width + x) * 4 + 2) 0] : List Nat) ≠
      [img2.pixels.getD ((y * img2.width + x) * 4) 0,
       img2.pixels.getD ((y * img2.width + x) * 4 + 1) 0,
       img2.pixels.getD ((y * img2.width + x) * 4 + 2) 0] →
      diffPixel img1 img2 b img x y = img.set_pixel x y [255, 255, 255]) ∧
    (([img1.pixels.getD ((y * img1.width + x) * 4) 0,
       img1.pixels.getD ((y * img1.width + x) * 4 + 1) 0,
       img1.pixels.getD ((y * img1.width + x) * 4 + 2) 0] : List Nat) =
      [img2.pixels.getD ((y * img2.width + x) * 4) 0,
       img2.pixels.getD ((y * img2.width + x) * 4 + 1) 0,
       img2.pixels.getD ((y * img2.width + x) * 4 + 2) 0] →
      img1.pixels.getD ((y * img1.width + x) * 4 + 3) 0 ≠ 0 →
      diffPixel img1 img2 b img x y = img.set_pixel x y
        ([img1.pixels.getD ((y * img1.width + x) * 4) 0,
          img1.pixels.getD ((y * img1.width + x) * 4 + 1) 0,
          img1.pixels.getD ((y * img1.width + x) * 4 + 2) 0].map
          fun c => min (((c : ℚ) * b).floor.toNat) 255)) ∧
    (([img1.pixels.getD ((y * img1.width + x) * 4) 0,
       img1.pixels.getD ((y * img1.width + x) * 4 + 1) 0,
       img1.pixels.getD ((y * img1.width + x) * 4 + 2) 0] : List Nat) =
      [img2.pixels.getD ((y * img2.width + x) * 4) 0,
       img2.pixels.getD ((y * img2.width + x) * 4 + 1) 0,
       img2.pixels.getD ((y * img2.width + x) * 4 + 2) 0] →
      img1.pixels.getD ((y * img1.width + x) * 4 + 3) 0 = 0 →
      diffPixel img1 img2 b img x y = .ok img) := by
  have hx2 : x < img2.width := by rw [hw2]; exact hx
  have hy2 : y < img2.height := by rw [hh2]; exact hy
  have hg1 := get_pixel_spec img1 x y hx hy hl1
  have hg2 := get_pixel_spec img2 x y hx2 hy2 hl2
  have ht := get_transparent_spec img1 x y hx hy hl1
  refine ⟨?_, ?_, ?_⟩
  · intro hne
    simp only [diffPixel, hg1, hg2, ok_bind]
    rw [if_pos hne]
  · intro heq halpha
    simp only [diffPixel, hg1, hg2, ok_bind]
    rw [if_neg (by simpa using heq), ht, ok_bind,
      if_neg (by simpa using halpha)]
  · intro heq halpha
    simp only [diffPixel, hg1, hg2, ok_bind]
    rw [if_neg (by simpa using heq), ht, ok_bind, if_pos (by simpa using halpha)]


theorem diffPixel_self_step (img1 : Image) (b : ℚ)
    (hl1 : img1.pixels.length = img1.width * img1.height * 4)
    (R : Image) (y x : Nat) (hy : y < img1.height) (hx : x < img1.width)
    (hP : DiffSelfInv img1 b R) :
    ∃ R1, diffPixel img1 img1 b R x y = .ok R1 ∧ DiffSelfInv img1 b R1 := by
  obtain ⟨hRw, hRh, hRl, hquads⟩ := hP
  have hspec := diffPixel_spec img1 img1 R b x y rfl rfl hl1 hl1 hx hy
  by_cases halpha : img1.pixels.getD ((y * img1.width + x) * 4 + 3) 0 = 0
  · exact ⟨R, hspec.2.2 rfl halpha, hRw, hRh, hRl, hquads⟩
  · have heq := hspec.2.1 rfl halpha
    have hxR : x < R.width := by rw [hRw]; exact hx
    have hyR : y < R.height := by rw [hRh]; exact hy
    have hlR : R.pixels.length = R.width * R.height * 4 := by rw [hRw, hRh]; exact hRl
    obtain ⟨p1, hset, hlen1, hq0, hq1, hq2, hq3, hframe⟩ :=
      set_pixel_spec R x y
        ([img1.pixels.getD ((y * img1.width + x) * 4) 0,
          img1.pixels.getD ((y * img1.width + x) * 4 + 1) 0,
          img1.pixels.getD ((y * img1.width + x) * 4 + 2) 0].map
          fun c => min (((c : ℚ) * b).floor.toNat) 255) hxR hyR hlR
    rw [hRw] at hq0 hq1 hq2 hq3 hframe
    refine ⟨⟨R.width, R.height, p1⟩, by rw [heq, hset], by rw [hRw], by rw [hRh],
      by rw [hlen1]; exact hRl, ?_⟩
    intro x1 y1 hx1 hy1
    by_cases hsame : y1 * img1.width + x1 = y * img1.width + x
    · obtain ⟨hxx, hyy⟩ := pixel_index_inj hx1 hx hsame
      subst hxx
      subst hyy
      right
      simp only [List.map_cons, List.map_nil, List.getD_cons_zero, List.getD_cons_succ,
        List.getD_eq_getElem?_getD, List.getElem?_cons_zero, List.getElem?_cons_succ,
        Option.getD_some] at hq0 hq1 hq2 hq3
      simp [pixelQuad, scaledQuad, hq0, hq1, hq2, hq3]
    · have e0 := hframe ((y1 * img1.width + x1) * 4) (by omega)
      have e1 := hframe ((y1 * img1.width + x1) * 4 + 1) (by omega)
      have e2 := hframe ((y1 * img1.width + x1) * 4 + 2) (by omega)
      have e3 := hframe ((y1 * img1.width + x1) * 4 + 3) (by omega)
      have hgoal := hquads x1 y1 hx1 hy1
      simp only [pixelQuad] at hgoal ⊢
      rw [e0, e1, e2, e3]
      exact hgoal

theorem diff_image_self (img1 : Image) (b : ℚ)
    (hl1 : img1.pixels.length = img1.width * img1.height * 4) :
    ∃ R, diff_image img1 img1 b = .ok R ∧ DiffSelfInv img1 b R := by
  have hinit : DiffSelfInv img1 b (Image.new img1.width img1.height) := by
    refine ⟨rfl, rfl, by simp [Image.new], ?_⟩
    intro x y _ _
    left
    simp only [pixelQuad, Image.new]
    rw [getD_replicate_zero, getD_replicate_zero, getD_replicate_zero, getD_replicate_zero]
  have houter := foldlM_ok_invariant
    (fun (img : Image) (y : Nat) =>
      (List.range img.width).foldlM (fun img x => diffPixel img1 img1 b img x y) img)
    (List.range (Image.new img1.width img1.height).height) (DiffSelfInv img1 b)
    ?_ (Image.new img1.width img1.height) hinit
  · simpa only [diff_image] using houter
  · intro R y hymem hP
    have hy : y < img1.height := by
      have := List.mem_range.mp hymem
      simpa [Image.new] using this
    have hw := hP.1
    exact foldlM_ok_invariant _ (List.range R.width) (DiffSelfInv img1 b)
      (fun R2 x hxmem hP2 =>
        diffPixel_self_step img1 b hl1 R2 y x hy
          (by have h := List.mem_range.mp hxmem; rwa [hw] at h) hP2) R hP

/-- C4: per pixel, diff_image (whose loop body is diffPixel) writes pure
white fully opaque when the two source RGB triples differ; writes the
baseline color with each channel multiplied by the coefficient and truncated
toward zero, fully opaque, when the triples are equal and the baseline pixel
is opaque; and leaves the pixel untouched (transparent) otherwise, keyed on
the baseline's transparency. Consequently diffing an image against itself
yields only untouched-transparent or darkened-baseline pixels. -/
theorem c4_diff_image_pixel_rule :
    (∀ (img1 img2 img : Image) (b : ℚ) (x y : Nat),
      img2.width = img1.width → img2.height = img1.height →
      img1.pixels.length = img1.width * img1.height * 4 →
      img2.pixels.length = img2.width * img2.height * 4 →
      x < img1.width → y < img1.height →
      ([img1.pixels.getD ((y * img1.width + x) * 4) 0,
        img1.pixels.getD ((y * img1.width + x) * 4 + 1) 0,
        img1.pixels.getD ((y * img1.width + x) * 4 + 2) 0] : List Nat) ≠
        [img2.pixels.getD ((y * img2.width + x) * 4) 0,
         img2.pixels.getD ((y * img2.width + x) * 4 + 1) 0,
         img2.pixels.getD ((y * img2.width + x) * 4 + 2) 0] →
      diffPixel img1 img2 b img x y = img.set_pixel x y [255, 255, 255]) ∧
    (∀ (img1 img2 img : Image) (b : ℚ) (x y : Nat),
      img2.width = img1.width → img2.height = img1.height →
      img1.pixels.length = img1.width * img1.height * 4 →
      img2.pixels.length = img2.width * img2.height * 4 →
      x < img1.width → y < img1.height →
      0 ≤ b → b ≤ 1 → (∀ v ∈ img1.pixels, v < 256) →
      ([img1.pixels.getD ((y * img1.width + x) * 4) 0,
        img1.pixels.getD ((y * img1.width + x) * 4 + 1) 0,
        img1.pixels.getD ((y * img1.width + x) * 4 + 2) 0] : List Nat) =
        [img2.pixels.getD ((y * img2.width + x) * 4) 0,
         img2.pixels.getD ((y * img2.width + x) * 4 + 1) 0,
         img2.pixels.getD ((y * img2.width + x) * 4 + 2) 0] →
      img1.pixels.getD ((y * img1.width + x) * 4 + 3) 0 ≠ 0 →
      diffPixel img1 img2 b img x y = img.set_pixel x y
        [(((img1.pixels.getD ((y * img1.width + x) * 4) 0 : ℚ)) * b).floor.toNat,
         (((img1.pixels.getD ((y * img1.width + x) * 4 + 1) 0 : ℚ)) * b).floor.toNat,
         (((img1.pixels.getD ((y * img1.width + x) * 4 + 2) 0 : ℚ)) * b).floor.toNat]) ∧
    (∀ (img1 img2 img : Image) (b : ℚ) (x y : Nat),
      img2.width = img1.width → img2.height = img1.height →
      img1.pixels.length = img1.width * img1.height * 4 →
      img2.pixels.length = img2.width * img2.height * 4 →
      x < img1.width → y < img1.height →
      ([img1.pixels.getD ((y * img1.width + x) * 4) 0,
        img1.pixels.getD ((y * img1.width + x) * 4 + 1) 0,
        img1.pixels.getD ((y * img1.width + x) * 4 + 2) 0] : List Nat) =
        [img2.pixels.getD ((y * img2.width + x) * 4) 0,
         img2.pixels.getD ((y * img2.width + x) * 4 + 1) 0,
         img2.pixels.getD ((y * img2.width + x) * 4 + 2) 0] →
      img1.pixels.getD ((y * img1.width + x) * 4 + 3) 0 = 0 →
      diffPixel img1 img2 b img x y = .ok img) ∧
    (∀ (img1 : Image) (b : ℚ),
      img1.pixels.length = img1.width * img1.height * 4 →
      0 ≤ b → b ≤ 1 → (∀ v ∈ img1.pixels, v < 256) →
      ∃ R, diff_image img1 img1 b = .ok R ∧ R.width = img1.width ∧ R.height = img1.height ∧
        ∀ x y, x < img1.width → y < img1.height →
          pixelQuad R img1.width x y = [0, 0, 0, 0] ∨
          pixelQuad R img1.width x y =
            [(((img1.pixels.getD ((y * img1.width + x) * 4) 0 : ℚ)) * b).floor.toNat,
             (((img1.pixels.getD ((y * img1.width + x) * 4 + 1) 0 : ℚ)) * b).floor.toNat,
             (((img1.pixels.getD ((y * img1.width + x) * 4 + 2) 0 : ℚ)) * b).floor.toNat,
             255]) := by
  have hbyteD : ∀ (img1 : Image), (∀ v ∈ img1.pixels, v < 256) →
      ∀ i, i < img1.pixels.length → img1.pixels.getD i 0 < 256 := by
    intro img1 hb i hi
    rw [List.getD_eq_getElem _ _ hi]
    exact hb _ (List.getElem_mem _)
  refine ⟨?_, ?_, ?_, ?_⟩
  · intro img1 img2 img b x y hw2 hh2 hl1 hl2 hx hy hne
    exact (diffPixel_spec img1 img2 img b x y hw2 hh2 hl1 hl2 hx hy).1 hne
  · intro img1 img2 img b x y hw2 hh2 hl1 hl2 hx hy hb0 hb1 hbytes heq halpha
    rw [(diffPixel_spec img1 img2 img b x y hw2 hh2 hl1 hl2 hx hy).2.1 heq halpha]
    have hlt := pixel_index_lt hx hy
    have m0 := min_scaled (img1.pixels.getD ((y * img1.width + x) * 4) 0) b
      (hbyteD img1 hbytes _ (by omega)) hb0 hb1
    have m1 := min_scaled (img1.pixels.getD ((y * img1.width + x) * 4 + 1) 0) b
      (hbyteD img1 hbytes _ (by omega)) hb0 hb1
    have m2 := min_scaled (img1.pixels.getD ((y * img1.width + x) * 4 + 2) 0) b
      (hbyteD img1 hbytes _ (by omega)) hb0 hb1
    simp only [List.getD_eq_getElem?_getD] at m0 m1 m2
    simp [m0, m1, m2]
  · intro img1 img2 img b x y hw2 hh2 hl1 hl2 hx hy heq halpha
    exact (diffPixel_spec img1 img2 img b x y hw2 hh2 hl1 hl2 hx hy).2.2 heq halpha
  · intro img1 b hl1 hb0 hb1 hbytes
    obtain ⟨R, hR, hw, hh, hl, hq⟩ := diff_image_self img1 b hl1
    refine ⟨R, hR, hw, hh, ?_⟩
    intro x y hx hy
    rcases hq x y hx hy with h | h
    · left
      exact h
    · right
      rw [h]
      have hlt := pixel_index_lt hx hy
      have m0 := min_scaled (img1.pixels.getD ((y * img1.width + x) * 4) 0) b
        (hbyteD img1 hbytes _ (by omega)) hb0 hb1
      have m1 := min_scaled (img1.pixels.getD ((y * img1.width + x) * 4 + 1) 0) b
        (hbyteD img1 hbytes _ (by omega)) hb0 hb1
      have m2 := min_scaled (img1.pixels.getD ((y * img1.width + x) * 4 + 2) 0) b
        (hbyteD img1 hbytes _ (by omega)) hb0 hb1
      simp only [scaledQuad]
      rw [m0, m1, m2]

/-- Witness for C4: the differ case (white) and the identical-image case at
a concrete 1x1 image with coefficient one. -/
theorem c4_diff_image_pixel_rule_witness :
    (([(10 : Nat), 20, 30] : List Nat) ≠ [10, 20, 31] ∧
      diffPixel ⟨1, 1, [10, 20, 30, 255]⟩ ⟨1, 1, [10, 20, 31, 255]⟩ 1 (Image.new 1 1) 0 0 =
        (Image.new 1 1).set_pixel 0 0 [255, 255, 255]) ∧
    (∃ R, diff_image ⟨1, 1, [10, 20, 30, 255]⟩ ⟨1, 1, [10, 20, 30, 255]⟩ 1 = .ok R ∧
      R.width = 1 ∧ R.height = 1 ∧
      ∀ x y, x < 1 → y < 1 →
        pixelQuad R 1 x y = [0, 0, 0, 0] ∨
        pixelQuad R 1 x y =
          [((((⟨1, 1, [10, 20, 30, 255]⟩ : Image).pixels.getD ((y * 1 + x) * 4) 0 : ℚ)) *
              1).floor.toNat,
           ((((⟨1, 1, [10, 20, 30, 255]⟩ : Image).pixels.getD ((y * 1 + x) * 4 + 1) 0 : ℚ)) *
              1).floor.toNat,
           ((((⟨1, 1, [10, 20, 30, 255]⟩ : Image).pixels.getD ((y * 1 + x) * 4 + 2) 0 : ℚ)) *
              1).floor.toNat,
           255]) :=
  ⟨⟨by decide,
    c4_diff_image_pixel_rule.1 ⟨1, 1, [10, 20, 30, 255]⟩ ⟨1, 1, [10, 20, 31, 255]⟩
      (Image.new 1 1) 1 0 0 rfl rfl (by decide) (by decide) (by decide) (by decide)
      (by decide)⟩,
   c4_diff_image_pixel_rule.2.2.2 ⟨1, 1, [10, 20, 30, 255]⟩ 1 (by decide)
     zero_le_one (le_refl 1) (by decide)⟩

theorem render_tile_8x8_ok (img : Image) (x0 y0 : Nat) (tile : Tile8x8) (ts : SCETileset)
    (hok : TileRefOK ts tile) (hx : x0 + 8 ≤ img.width) (hy : y0 + 8 ≤ img.height)
    (hlen : img.pixels.length = img.width * img.height * 4) :
    ∃ img1, render_tile_8x8 img x0 y0 tile ts = .ok img1 ∧
      img1.width = img.width ∧ img1.height = img.height ∧
      img1.pixels.length = img.pixels.length := by
  obtain ⟨hidx, hpal⟩ := hok
  have hg : ts.gfx[tile.idx]? = some (ts.gfx.getD tile.idx []) := by
    rw [List.getElem?_eq_getElem hidx, List.getD_eq_getElem _ _ hidx]
  unfold render_tile_8x8
  rw [hg]
  have hstep : ∀ (R : Image) (y x : Nat), y < 8 → x < 8 →
      (R.width = img.width ∧ R.height = img.height ∧ R.pixels.length = img.pixels.length) →
      ∃ R1, renderTilePixel ts (ts.gfx.getD tile.idx []) tile x0 y0 R y x = .ok R1 ∧
        (R1.width = img.width ∧ R1.height = img.height ∧
          R1.pixels.length = img.pixels.length) := by
    intro R y x hy8 hx8 hP
    obtain ⟨hRw, hRh, hRl⟩ := hP
    simp only [renderTilePixel]
    by_cases hc : ((ts.gfx.getD tile.idx []).getD (if tile.flip_y = true then 7 - y else y)
        []).getD (if tile.flip_x = true then 7 - x else x) 0 = 0
    · rw [if_pos hc]
      exact ⟨R, rfl, hRw, hRh, hRl⟩
    · rw [if_neg hc]
      have hy1 : (if tile.flip_y = true then 7 - y else y) < 8 := by split <;> omega
      have hx1 : (if tile.flip_x = true then 7 - x else x) < 8 := by split <;> omega
      have hslot := hpal _ hy1 _ hx1 hc
      rw [List.getElem?_eq_getElem hslot]
      have hxw : x0 + x < R.width := by omega
      have hyh : y0 + y < R.height := by omega
      obtain ⟨p1, hset, hl1, -, -, -, -, -⟩ :=
        set_pixel_spec R (x0 + x) (y0 + y) _ hxw hyh (by rw [hRw, hRh, hRl]; exact hlen)
      exact ⟨⟨R.width, R.height, p1⟩, hset, by rw [hRw], by rw [hRh], by rw [hl1, hRl]⟩
  have houter := foldlM_ok_invariant
    (fun (R : Image) (y : Nat) =>
      (List.range 8).foldlM
        (fun R x => renderTilePixel ts (ts.gfx.getD tile.idx []) tile x0 y0 R y x) R)
    (List.range 8)
    (fun R => R.width = img.width ∧ R.height = img.height ∧
      R.pixels.length = img.pixels.length)
    (fun R y hymem hP =>
      foldlM_ok_invariant _ (List.range 8) _
        (fun R2 x hxmem hP2 =>
          hstep R2 y x (List.mem_range.mp hymem) (List.mem_range.mp hxmem) hP2) R hP)
    img ⟨rfl, rfl, rfl⟩
  obtain ⟨img1, hfold, hP1⟩ := houter
  exact ⟨img1, hfold, hP1.1, hP1.2.1, hP1.2.2⟩

theorem render_tile_16x16_ok (img : Image) (x0 y0 : Nat) (t : Tile16x16) (ts : SCETileset)
    (hok : Tile16OK ts t) (hx : x0 + 16 ≤ img.width) (hy : y0 + 16 ≤ img.height)
    (hlen : img.pixels.length = img.width * img.height * 4) :
    ∃ img1, render_tile_16x16 img x0 y0 t ts = .ok img1 ∧
      img1.width = img.width ∧ img1.height = img.height ∧
      img1.pixels.length = img.pixels.length := by
  obtain ⟨h1, h2, h3, h4⟩ := hok
  obtain ⟨i1, e1, w1, hh1, l1⟩ := render_tile_8x8_ok img x0 y0 t.top_left ts h1
    (by omega) (by omega) hlen
  obtain ⟨i2, e2, w2, hh2, l2⟩ := render_tile_8x8_ok i1 (x0 + 8) y0 t.top_right ts h2
    (by omega) (by omega) (by rw [l1, w1, hh1]; exact hlen)
  obtain ⟨i3, e3, w3, hh3, l3⟩ := render_tile_8x8_ok i2 x0 (y0 + 8) t.bottom_left ts h3
    (by rw [w2, w1]; omega) (by rw [hh2, hh1]; omega)
    (by rw [l2, l1, w2, w1, hh2, hh1]; exact hlen)
  obtain ⟨i4, e4, w4, hh4, l4⟩ := render_tile_8x8_ok i3 (x0 + 8) (y0 + 8) t.bottom_right ts h4
    (by rw [w3, w2, w1]; omega) (by rw [hh3, hh2, hh1]; omega)
    (by rw [l3, l2, l1, w3, w2, w1, hh3, hh2, hh1]; exact hlen)
  refine ⟨i4, ?_, by rw [w4, w3, w2, w1], by rw [hh4, hh3, hh2, hh1],
    by rw [l4, l3, l2, l1]⟩
  simp only [render_tile_16x16, e1, ok_bind, e2, e3, e4]

theorem tileRefOK_flipx (ts : SCETileset) (q : Tile8x8) (v : Bool) :
    TileRefOK ts { q with flip_x := v } ↔ TileRefOK ts q := Iff.rfl

theorem tileRefOK_flipy (ts : SCETileset) (q : Tile8x8) (v : Bool) :
    TileRefOK ts { q with flip_y := v } ↔ TileRefOK ts q := Iff.rfl

theorem renderScreenWord_ok (ts : SCETileset) (x0 y0 : Nat) (img : Image) (i d : Nat)
    (hword : ScreenWordOK ts d)
    (hx : (i % 16 + x0) * 16 + 16 ≤ img.width)
    (hy : (i / 16 + y0) * 16 + 16 ≤ img.height)
    (hlen : img.pixels.length = img.width * img.height * 4) :
    ∃ img1, renderScreenWord ts x0 y0 img i d = .ok img1 ∧
      img1.width = img.width ∧ img1.height = img.height ∧
      img1.pixels.length = img.pixels.length := by
  obtain ⟨hidx, htile⟩ := hword
  have hg : ts.tiles[d &&& 0x3FF]? = some (ts.tiles.getD (d &&& 0x3FF) sampleTileA) := by
    rw [List.getElem?_eq_getElem hidx, List.getD_eq_getElem _ _ hidx]
  have hok := htile _ hg
  obtain ⟨q1, q2, q3, q4⟩ := hok
  simp only [renderScreenWord, hg]
  have hflip : ∀ t : Tile16x16, Tile16OK ts t →
      Tile16OK ts (if (d &&& 0x400 != 0) = true then
        { top_left := { t.top_right with flip_x := !t.top_right.flip_x }
          top_right := { t.top_left with flip_x := !t.top_left.flip_x }
          bottom_left := { t.bottom_right with flip_x := !t.bottom_right.flip_x }
          bottom_right := { t.bottom_left with flip_x := !t.bottom_left.flip_x } }
      else t) := by
    intro t ht
    split
    · exact ⟨(tileRefOK_flipx ts t.top_right _).mpr ht.2.1,
        (tileRefOK_flipx ts t.top_left _).mpr ht.1,
        (tileRefOK_flipx ts t.bottom_right _).mpr ht.2.2.2,
        (tileRefOK_flipx ts t.bottom_left _).mpr ht.2.2.1⟩
    · exact ht
  have hflipy : ∀ t : Tile16x16, Tile16OK ts t →
      Tile16OK ts (if (d &&& 0x800 != 0) = true then
        { top_left := { t.bottom_left with flip_y := !t.bottom_left.flip_y }
          top_right := { t.bottom_right with flip_y := !t.bottom_right.flip_y }
          bottom_left := { t.top_left with flip_y := !t.top_left.flip_y }
          bottom_right := { t.top_right with flip_y := !t.top_right.flip_y } }
      else t) := by
    intro t ht
    split
    · exact ⟨(tileRefOK_flipy ts t.bottom_left _).mpr ht.2.2.1,
        (tileRefOK_flipy ts t.bottom_right _).mpr ht.2.2.2,
        (tileRefOK_flipy ts t.top_left _).mpr ht.1,
        (tileRefOK_flipy ts t.top_right _).mpr ht.2.1⟩
    · exact ht
  exact render_tile_16x16_ok img ((i % 16 + x0) * 16) ((i / 16 + y0) * 16) _ ts
    (hflipy _ (hflip _ ⟨q1, q2, q3, q4⟩)) (by omega) (by omega) hlen

theorem renderScreen_ok (ts : SCETileset) (img : Image) (s : Screen)
    (hxs : (s.x + 1) * 256 ≤ img.width) (hys : (s.y + 1) * 256 ≤ img.height)
    (hcount : s.data.length ≤ 256) (hwords : ∀ d ∈ s.data, ScreenWordOK ts d)
    (hlen : img.pixels.length = img.width * img.height * 4) :
    ∃ img1, renderScreen ts img s = .ok img1 ∧
      img1.width = img.width ∧ img1.height = img.height ∧
      img1.pixels.length = img.pixels.length := by
  unfold renderScreen
  have h := foldlM_ok_invariant
    (fun (R : Image) (p : Nat × Nat) => renderScreenWord ts (s.x * 16) (s.y * 16) R p.1 p.2)
    s.data.enum
    (fun R => R.width = img.width ∧ R.height = img.height ∧
      R.pixels.length = img.pixels.length)
    ?_ img ⟨rfl, rfl, rfl⟩
  · obtain ⟨img1, hfold, hP⟩ := h
    exact ⟨img1, hfold, hP.1, hP.2.1, hP.2.2⟩
  · intro R p hp hP
    obtain ⟨hi, hd⟩ := mem_enum_facts hp
    have hi256 : p.1 < 256 := by omega
    have hm : p.1 % 16 ≤ 15 := by omega
    have hdv : p.1 / 16 ≤ 15 := by omega
    have hx : (p.1 % 16 + s.x * 16) * 16 + 16 ≤ R.width := by
      rw [hP.1]
      have : (p.1 % 16 + s.x * 16) * 16 + 16 ≤ (s.x + 1) * 256 := by
        have e1 : (p.1 % 16 + s.x * 16) * 16 = p.1 % 16 * 16 + s.x * 256 := by ring
        have e2 : (s.x + 1) * 256 = s.x * 256 + 256 := by ring
        omega
      omega
    have hy : (p.1 / 16 + s.y * 16) * 16 + 16 ≤ R.height := by
      rw [hP.2.1]
      have : (p.1 / 16 + s.y * 16) * 16 + 16 ≤ (s.y + 1) * 256 := by
        have e1 : (p.1 / 16 + s.y * 16) * 16 = p.1 / 16 * 16 + s.y * 256 := by ring
        have e2 : (s.y + 1) * 256 = s.y * 256 + 256 := by ring
        omega
      omega
    obtain ⟨R1, hstep, hw1, hh1, hl1⟩ := renderScreenWord_ok ts (s.x * 16) (s.y * 16) R
      p.1 p.2 (hwords _ hd) hx hy (by rw [hP.1, hP.2.1, hP.2.2]; exact hlen)
    exact ⟨R1, hstep, by rw [hw1, hP.1], by rw [hh1, hP.2.1], by rw [hl1, hP.2.2]⟩

theorem render_screens_ok (screens : List Screen) (img : Image) (ts : SCETileset)
    (hs : ∀ s ∈ screens, (s.x + 1) * 256 ≤ img.width ∧ (s.y + 1) * 256 ≤ img.height ∧
      s.data.length ≤ 256 ∧ ∀ d ∈ s.data, ScreenWordOK ts d)
    (hlen : img.pixels.length = img.width * img.height * 4) :
    ∃ img1, render_screens screens img ts = .ok img1 ∧
      img1.width = img.width ∧ img1.height = img.height ∧
      img1.pixels.length = img.pixels.length := by
  unfold render_screens
  have h := foldlM_ok_invariant
    (fun (R : Image) (s : Screen) => renderScreen ts R s) screens
    (fun R => R.width = img.width ∧ R.height = img.height ∧
      R.pixels.length = img.pixels.length)
    ?_ img ⟨rfl, rfl, rfl⟩
  · obtain ⟨img1, hfold, hP⟩ := h
    exact ⟨img1, hfold, hP.1, hP.2.1, hP.2.2⟩
  · intro R s hsmem hP
    obtain ⟨hx, hy, hc, hw⟩ := hs s hsmem
    obtain ⟨R1, hstep, hw1, hh1, hl1⟩ := renderScreen_ok ts R s
      (by rw [hP.1]; exact hx) (by rw [hP.2.1]; exact hy) hc hw
      (by rw [hP.1, hP.2.1, hP.2.2]; exact hlen)
    exact ⟨R1, hstep, by rw [hw1, hP.1], by rw [hh1, hP.2.1], by rw [hl1, hP.2.2]⟩

theorem div_screen_bound {a w u : Nat} (h : a < w / u) (hu : 0 < u) : (a + 1) * u ≤ w := by
  have h1 : a + 1 ≤ w / u := h
  calc (a + 1) * u ≤ w / u * u := Nat.mul_le_mul_right u h1
  _ ≤ w := Nat.div_mul_le_self w u

theorem renderBGBlock_ok (ts : SCETileset) (img : Image) (d : BGDataData)
    (hrefs : d.type_ = "DECOMP" →
      (d.source.length = 1024 ∨ d.source.length = 2048) →
      ∀ w ∈ d.source, TileRefOK ts (decode_8x8_tile (w % 65536)))
    (hlen : img.pixels.length = img.width * img.height * 4) :
    ∃ img1, renderBGBlock ts img d = .ok img1 ∧
      img1.width = img.width ∧ img1.height = img.height ∧
      img1.pixels.length = img.pixels.length := by
  simp only [renderBGBlock]
  split
  · exact ⟨img, rfl, rfl, rfl, rfl⟩
  · rename_i htype
    have htype' : d.type_ = "DECOMP" := by
      by_contra hcon
      exact htype hcon
    split
    · rename_i h1024
      have hrefs' := hrefs htype' (Or.inl (by simpa using h1024))
      have h := foldlM_ok_invariant
        (fun (R : Image) (sy : Nat) =>
          (List.range (img.width / 256)).foldlM (fun R2 sx =>
            (d.source.map fun word => decode_8x8_tile (word % 65536)).enum.foldlM
              (fun R3 p => render_tile_8x8 R3 (sx * 256 + p.1 % 32 * 8)
                (sy * 256 + p.1 / 32 * 8) p.2 ts) R2) R)
        (List.range (img.height / 256))
        (fun R => R.width = img.width ∧ R.height = img.height ∧
          R.pixels.length = img.pixels.length)
        ?_ img ⟨rfl, rfl, rfl⟩
      · obtain ⟨img1, hfold, hP⟩ := h
        exact ⟨img1, hfold, hP.1, hP.2.1, hP.2.2⟩
      · intro R sy hsy hP
        have hsyb : (sy + 1) * 256 ≤ img.height :=
          div_screen_bound (List.mem_range.mp hsy) (by omega)
        refine foldlM_ok_invariant _ _ _ ?_ R hP
        intro R2 sx hsx hP2
        have hsxb : (sx + 1) * 256 ≤ img.width :=
          div_screen_bound (List.mem_range.mp hsx) (by omega)
        refine foldlM_ok_invariant _ _ _ ?_ R2 hP2
        intro R3 p hpmem hP3
        obtain ⟨hilt, hmem⟩ := mem_enum_facts hpmem
        rw [List.length_map] at hilt
        obtain ⟨w, hwmem, hweq⟩ := List.mem_map.mp hmem
        have hsl : d.source.length = 1024 := by simpa using h1024
        have hi1024 : p.1 < 1024 := by omega
        obtain ⟨R4, hstep, hw4, hh4, hl4⟩ := render_tile_8x8_ok R3
          (sx * 256 + p.1 % 32 * 8) (sy * 256 + p.1 / 32 * 8) p.2 ts
          (hweq ▸ hrefs' w hwmem)
          (by rw [hP3.1]
              have hm : p.1 % 32 ≤ 31 := by omega
              have e2 : (sx + 1) * 256 = sx * 256 + 256 := by ring
              omega)
          (by rw [hP3.2.1]
              have hdv : p.1 / 32 ≤ 31 := by omega
              have e2 : (sy + 1) * 256 = sy * 256 + 256 := by ring
              omega)
          (by rw [hP3.1, hP3.2.1, hP3.2.2]; exact hlen)
        exact ⟨R4, hstep, by rw [hw4, hP3.1], by rw [hh4, hP3.2.1], by rw [hl4, hP3.2.2]⟩
    · split
      · rename_i hne1024 h2048
        have hrefs' := hrefs htype' (Or.inr (by simpa using h2048))
        have h := foldlM_ok_invariant
          (fun (R : Image) (sy : Nat) =>
            (List.range (img.width / 512)).foldlM (fun R2 sx2 =>
              (d.source.map fun word => decode_8x8_tile (word % 65536)).enum.foldlM
                (fun R3 p =>
                  if p.1 < 1024 then
                    render_tile_8x8 R3 (sx2 * 512 + p.1 % 32 * 8)
                      (sy * 256 + p.1 / 32 * 8) p.2 ts
                  else
                    render_tile_8x8 R3 (sx2 * 512 + 256 + p.1 % 32 * 8)
                      (sy * 256 + (p.1 - 1024) / 32 * 8) p.2 ts) R2) R)
          (List.range (img.height / 256))
          (fun R => R.width = img.width ∧ R.height = img.height ∧
            R.pixels.length = img.pixels.length)
          ?_ img ⟨rfl, rfl, rfl⟩
        · obtain ⟨img1, hfold, hP⟩ := h
          exact ⟨img1, hfold, hP.1, hP.2.1, hP.2.2⟩
        · intro R sy hsy hP
          have hsyb : (sy + 1) * 256 ≤ img.height :=
            div_screen_bound (List.mem_range.mp hsy) (by omega)
          refine foldlM_ok_invariant _ _ _ ?_ R hP
          intro R2 sx2 hsx hP2
          have hsxb : (sx2 + 1) * 512 ≤ img.width :=
            div_screen_bound (List.mem_range.mp hsx) (by omega)
          refine foldlM_ok_invariant _ _ _ ?_ R2 hP2
          intro R3 p hpmem hP3
          obtain ⟨hilt, hmem⟩ := mem_enum_facts hpmem
          rw [List.length_map] at hilt
          obtain ⟨w, hwmem, hweq⟩ := List.mem_map.mp hmem
          have hsl : d.source.length = 2048 := by simpa using h2048
          have hi2048 : p.1 < 2048 := by omega
          by_cases hhalf : p.1 < 1024
          · rw [if_pos hhalf]
            obtain ⟨R4, hstep, hw4, hh4, hl4⟩ := render_tile_8x8_ok R3
              (sx2 * 512 + p.1 % 32 * 8) (sy * 256 + p.1 / 32 * 8) p.2 ts
              (hweq ▸ hrefs' w hwmem)
              (by rw [hP3.1]
                  have hm : p.1 % 32 ≤ 31 := by omega
                  have e2 : (sx2 + 1) * 512 = sx2 * 512 + 512 := by ring
                  omega)
              (by rw [hP3.2.1]
                  have hdv : p.1 / 32 ≤ 31 := by omega
                  have e2 : (sy + 1) * 256 = sy * 256 + 256 := by ring
                  omega)
              (by rw [hP3.1, hP3.2.1, hP3.2.2]; exact hlen)
            exact ⟨R4, hstep, by rw [hw4, hP3.1], by rw [hh4, hP3.2.1], by rw [hl4, hP3.2.2]⟩
          · rw [if_neg hhalf]
            obtain ⟨R4, hstep, hw4, hh4, hl4⟩ := render_tile_8x8_ok R3
              (sx2 * 512 + 256 + p.1 % 32 * 8) (sy * 256 + (p.1 - 1024) / 32 * 8) p.2 ts
              (hweq ▸ hrefs' w hwmem)
              (by rw [hP3.1]
                  have hm : p.1 % 32 ≤ 31 := by omega
                  have e2 : (sx2 + 1) * 512 = sx2 * 512 + 512 := by ring
                  omega)
              (by rw [hP3.2.1]
                  have hdv : (p.1 - 1024) / 32 ≤ 31 := by omega
                  have e2 : (sy + 1) * 256 = sy * 256 + 256 := by ring
                  omega)
              (by rw [hP3.1, hP3.2.1, hP3.2.2]; exact hlen)
            exact ⟨R4, hstep, by rw [hw4, hP3.1], by rw [hh4, hP3.2.1], by rw [hl4, hP3.2.2]⟩
      · exact ⟨img, rfl, rfl, rfl, rfl⟩

theorem render_bgdata_ok (bg : BGData) (img : Image) (ts : SCETileset)
    (hrefs : ∀ blk ∈ bg.data, blk.type_ = "DECOMP" →
      (blk.source.length = 1024 ∨ blk.source.length = 2048) →
      ∀ w ∈ blk.source, TileRefOK ts (decode_8x8_tile (w % 65536)))
    (hlen : img.pixels.length = img.width * img.height * 4) :
    ∃ img1, render_bgdata bg img ts = .ok img1 ∧
      img1.width = img.width ∧ img1.height = img.height ∧
      img1.pixels.length = img.pixels.length := by
  unfold render_bgdata
  have h := foldlM_ok_invariant
    (fun (R : Image) (blk : BGDataData) => renderBGBlock ts R blk) bg.data
    (fun R => R.width = img.width ∧ R.height = img.height ∧
      R.pixels.length = img.pixels.length)
    ?_ img ⟨rfl, rfl, rfl⟩
  · obtain ⟨img1, hfold, hP⟩ := h
    exact ⟨img1, hfold, hP.1, hP.2.1, hP.2.2⟩
  · intro R blk hmem hP
    obtain ⟨R1, hstep, hw1, hh1, hl1⟩ := renderBGBlock_ok ts R blk (hrefs blk hmem)
      (by rw [hP.1, hP.2.1, hP.2.2]; exact hlen)
    exact ⟨R1, hstep, by rw [hw1, hP.1], by rw [hh1, hP.2.1], by rw [hl1, hP.2.2]⟩

theorem bind_noerr {α β : Type} (x : Res α) (f : α → Res β)
    (hx : ∀ s, x ≠ .error (.err s)) (hf : ∀ a s, f a ≠ .error (.err s)) :
    ∀ s, (x >>= f) ≠ .error (.err s) := by
  intro s
  cases hx1 : x with
  | ok a =>
    simp only [hx1, ok_bind]
    exact hf a s
  | error e =>
    simp only [hx1, error_bind]
    intro hcon
    cases e with
    | err s1 => exact hx s1 hx1
    | oob => simp at hcon

theorem render_tile_16x16_noerr (img : Image) (x0 y0 : Nat) (t : Tile16x16)
    (ts : SCETileset) (s : String) :
    render_tile_16x16 img x0 y0 t ts ≠ .error (.err s) := by
  unfold render_tile_16x16
  exact bind_noerr _ _ (fun s1 => render_tile_8x8_noerr img x0 y0 t.top_left ts s1)
    (fun i1 s1 => bind_noerr _ _
      (fun s2 => render_tile_8x8_noerr i1 (x0 + 8) y0 t.top_right ts s2)
      (fun i2 s2 => bind_noerr _ _
        (fun s3 => render_tile_8x8_noerr i2 x0 (y0 + 8) t.bottom_left ts s3)
        (fun i3 s3 => render_tile_8x8_noerr i3 (x0 + 8) (y0 + 8) t.bottom_right ts s3) s2)
      s1) s

theorem renderScreenWord_noerr (ts : SCETileset) (x0 y0 : Nat) (img : Image)
    (i d : Nat) (s : String) :
    renderScreenWord ts x0 y0 img i d ≠ .error (.err s) := by
  simp only [renderScreenWord]
  cases ts.tiles[d &&& 0x3FF]? with
  | none => simp
  | some t => exact render_tile_16x16_noerr img _ _ _ ts s

theorem render_screens_noerr (screens : List Screen) (img : Image) (ts : SCETileset)
    (s : String) : render_screens screens img ts ≠ .error (.err s) := by
  exact foldlM_noerr _ _
    (fun b a _ s1 => foldlM_noerr _ _
      (fun b2 p _ s2 => renderScreenWord_noerr ts (a.x * 16) (a.y * 16) b2 p.1 p.2 s2)
      b s1)
    img s

/-- C10 counterexample: with every tile-table index, bitmap index and
reachable palette slot in range (the claim's stated precondition), a screen
whose grid position lies outside the image still makes render_screens fail
with the index-out-of-bounds panic, so the functions are not total under the
stated precondition alone. -/
theorem c10_counterexample :
    (0 &&& 0x3FF) < sampleTileset.tiles.length ∧
    sampleTileset.tiles[0 &&& 0x3FF]? =
      some ⟨plainQuad, plainQuad, plainQuad, plainQuad⟩ ∧
    Tile16OK sampleTileset ⟨plainQuad, plainQuad, plainQuad, plainQuad⟩ ∧
    render_screens [⟨1, 0, [0]⟩] (Image.new 16 16) sampleTileset = .error .oob := by
  refine ⟨by decide, by rfl, ?_, by decide⟩
  refine ⟨?_, ?_, ?_, ?_⟩ <;>
    exact ⟨by decide, by decide⟩

/-- C10 (amended): rendering indexes the merged tileset without bounds
checks. When every referenced bitmap index and reachable palette slot is in
range and the painted region fits inside the image (tile blocks in bounds
for render_tile_8x8; every screen's 256x256 block inside the image and at
most 256 data words for render_screens; nothing extra for render_bgdata,
whose tiling is in bounds by construction), the three functions succeed.
When an index precondition is violated the failure is the
index-out-of-bounds panic, never a returned error value. -/
theorem c10_render_bounds :
    (∀ (img : Image) (x0 y0 : Nat) (tile : Tile8x8) (ts : SCETileset),
      TileRefOK ts tile → x0 + 8 ≤ img.width → y0 + 8 ≤ img.height →
      img.pixels.length = img.width * img.height * 4 →
      ∃ img1, render_tile_8x8 img x0 y0 tile ts = .ok img1 ∧
        img1.width = img.width ∧ img1.height = img.height ∧
        img1.pixels.length = img.pixels.length) ∧
    (∀ (screens : List Screen) (img : Image) (ts : SCETileset),
      (∀ s ∈ screens, (s.x + 1) * 256 ≤ img.width ∧ (s.y + 1) * 256 ≤ img.height ∧
        s.data.length ≤ 256 ∧ ∀ d ∈ s.data, ScreenWordOK ts d) →
      img.pixels.length = img.width * img.height * 4 →
      ∃ img1, render_screens screens img ts = .ok img1 ∧
        img1.width = img.width ∧ img1.height = img.height ∧
        img1.pixels.length = img.pixels.length) ∧
    (∀ (bg : BGData) (img : Image) (ts : SCETileset),
      (∀ blk ∈ bg.data, blk.type_ = "DECOMP" →
        (blk.source.length = 1024 ∨ blk.source.length = 2048) →
        ∀ w ∈ blk.source, TileRefOK ts (decode_8x8_tile (w % 65536))) →
      img.pixels.length = img.width * img.height * 4 →
      ∃ img1, render_bgdata bg img ts = .ok img1 ∧
        img1.width = img.width ∧ img1.height = img.height ∧
        img1.pixels.length = img.pixels.length) ∧
    (∀ (img : Image) (x0 y0 : Nat) (tile : Tile8x8) (ts : SCETileset),
      ts.gfx.length ≤ tile.idx → render_tile_8x8 img x0 y0 tile ts = .error .oob) ∧
    (∀ (ts : SCETileset) (x0 y0 : Nat) (img : Image) (i d : Nat),
      ts.tiles.length ≤ d &&& 0x3FF →
      renderScreenWord ts x0 y0 img i d = .error .oob) ∧
    (∀ (screens : List Screen) (img : Image) (ts : SCETileset) (s : String),
      render_screens screens img ts ≠ .error (.err s)) ∧
    (∀ (bg : BGData) (img : Image) (ts : SCETileset) (s : String),
      render_bgdata bg img ts ≠ .error (.err s)) := by
  refine ⟨render_tile_8x8_ok, render_screens_ok, render_bgdata_ok, ?_, ?_,
    render_screens_noerr, render_bgdata_noerr⟩
  · intro img x0 y0 tile ts hidx
    unfold render_tile_8x8
    rw [List.getElem?_eq_none hidx]
  · intro ts x0 y0 img i d hidx
    simp only [renderScreenWord]
    rw [List.getElem?_eq_none hidx]


theorem image_new_len (w h : Nat) :
    (Image.new w h).pixels.length = (Image.new w h).width * (Image.new w h).height * 4 := by
  simp [Image.new]

/-- Witness for C10: totality of render_screens on a concrete in-bounds
screen, and the out-of-bounds panic of render_tile_8x8 on a concrete
out-of-range bitmap index. -/
theorem c10_render_bounds_witness :
    ((∀ s ∈ [(⟨0, 0, [0]⟩ : Screen)],
        (s.x + 1) * 256 ≤ (Image.new 256 256).width ∧
        (s.y + 1) * 256 ≤ (Image.new 256 256).height ∧
        s.data.length ≤ 256 ∧ ∀ d ∈ s.data, ScreenWordOK sampleTileset d) ∧
      (Image.new 256 256).pixels.length =
        (Image.new 256 256).width * (Image.new 256 256).height * 4 ∧
      (∃ img1, render_screens [⟨0, 0, [0]⟩] (Image.new 256 256) sampleTileset = .ok img1 ∧
        img1.width = (Image.new 256 256).width ∧
        img1.height = (Image.new 256 256).height ∧
        img1.pixels.length = (Image.new 256 256).pixels.length)) ∧
    (sampleTileset.gfx.length ≤ (⟨5, 0, false, false, false⟩ : Tile8x8).idx ∧
      render_tile_8x8 (Image.new 8 8) 0 0 ⟨5, 0, false, false, false⟩ sampleTileset =
        .error .oob) := by
  have hscr : ∀ s ∈ [(⟨0, 0, [0]⟩ : Screen)],
      (s.x + 1) * 256 ≤ (Image.new 256 256).width ∧
      (s.y + 1) * 256 ≤ (Image.new 256 256).height ∧
      s.data.length ≤ 256 ∧ ∀ d ∈ s.data, ScreenWordOK sampleTileset d := by
    intro s hs
    have hs0 : s = ⟨0, 0, [0]⟩ := by simpa using hs
    subst hs0
    refine ⟨by decide, by decide, by decide, ?_⟩
    intro d hd
    have hd0 : d = 0 := by simpa using hd
    subst hd0
    refine ⟨by decide, ?_⟩
    intro t ht
    have h2 : sampleTileset.tiles[(0 : Nat) &&& 0x3FF]? =
        some ⟨plainQuad, plainQuad, plainQuad, plainQuad⟩ := by rfl
    rw [h2] at ht
    obtain rfl := Option.some.inj ht
    refine ⟨?_, ?_, ?_, ?_⟩ <;> exact ⟨by decide, by decide⟩
  refine ⟨⟨hscr, image_new_len 256 256, c10_render_bounds.2.1 [⟨0, 0, [0]⟩]
      (Image.new 256 256) sampleTileset hscr (image_new_len 256 256)⟩, ⟨by decide, ?_⟩⟩
  exact c10_render_bounds.2.2.2.1 (Image.new 8 8) 0 0 ⟨5, 0, false, false, false⟩
    sampleTileset (by decide)
